import Mathlib

/-!
# GAS vocabulary quiz client (`frontend/script.js`)

A shallow embedding of the `QuizApp` class.  The fields of the class, the
parts of the DOM and of `localStorage` it reads back, and the effects it
emits (alerts, `fetch` calls, pending timeouts) form one record that every
method transforms.  Asynchronous code is split at its suspension points:
`loadQuestionBegin` is `loadQuestion` up to the call of `fetch`,
`loadQuestionResume` is the rest of it once the fetch has settled.

Numbers: the counters are IEEE doubles in the source; the model keeps the
exact value a numeral denotes and adds 1 exactly, so it agrees with the source
wherever that value and its successor are doubles, in particular on the
integers of absolute value below 2^53.  The two zeros are not told apart.
Strings are sequences of Unicode code points.
Write-only rendering (feedback texts, the statistics labels), `console.error`
and the bookkeeping of `setInterval` handles are left out: no method reads
them back.
-/

namespace GAS

/-! ## JavaScript values -/

/-- Values that `correctAnswer` and `dataset.option` can hold: `null`,
`undefined`, a string, or `other` for a value that is none of these (a
number, a boolean, an object, half of a surrogate pair).  The model compares
such values with `===` only when one side is a string or `undefined`, where
strict equality is structural equality. -/
inductive JSVal where
  | null
  | undefined
  | str (s : String)
  | other
  deriving DecidableEq, Repr

/-- Truthiness of a string: every string but the empty one. -/
def jsTruthy (s : String) : Bool := decide (s ≠ "")

/-- White space and line terminators removed by `String.prototype.trim`. -/
def jsIsWhiteSpace (c : Char) : Bool :=
  let n := c.toNat
  n == 0x09 || n == 0x0A || n == 0x0B || n == 0x0C || n == 0x0D || n == 0x20 ||
  n == 0xA0 || n == 0x1680 || (0x2000 ≤ n && n ≤ 0x200A) || n == 0x2028 ||
  n == 0x2029 || n == 0x202F || n == 0x205F || n == 0x3000 || n == 0xFEFF

/-- Characters of `s.trim()`: white space is dropped at both ends. -/
def jsTrimChars (cs : List Char) : List Char :=
  (cs.dropWhile jsIsWhiteSpace).rdropWhile jsIsWhiteSpace

/-- The method `String.prototype.trim`. -/
def jsTrim (s : String) : String := ⟨jsTrimChars s.data⟩

/-- The decimal digits `0` to `9`. -/
def isDecimalDigit (c : Char) : Bool := 48 ≤ c.toNat && c.toNat ≤ 57

/-- Value of a run of decimal digits, most significant first, continuing from
the value `acc` of the digits already read. -/
def digitsValue : List Char → Nat → Option Nat
  | [], acc => some acc
  | c :: cs, acc =>
    if isDecimalDigit c then digitsValue cs (acc * 10 + (c.toNat - 48)) else none

/-- Values of `correctCount` and `wrongCount`: the integer `n`, the
non-integer `m / 10 ^ t` (with `t ≥ 1` and `m` not divisible by 10), an
infinity, `NaN`, or the string read from `localStorage`. -/
inductive Count where
  | num (n : Int)
  | frac (m : Int) (t : Nat)
  | inf (negative : Bool)
  | nan
  | str (s : String)
  deriving DecidableEq, Repr

/-- Value of a digit in a radix up to 16. -/
def digitValue (c : Char) : Option Nat :=
  let n := c.toNat
  if 48 ≤ n ∧ n ≤ 57 then some (n - 48)
  else if 97 ≤ n ∧ n ≤ 102 then some (n - 87)
  else if 65 ≤ n ∧ n ≤ 70 then some (n - 55)
  else none

/-- Value of a run of digits in the given radix, most significant first. -/
def radixValue (radix : Nat) : List Char → Nat → Option Nat
  | [], acc => some acc
  | c :: cs, acc =>
    match digitValue c with
    | some d => if d < radix then radixValue radix cs (acc * radix + d) else none
    | none => none

/-- Value of a binary, octal or hexadecimal integer literal `0b…`, `0o…`,
`0x…`; `none` when the characters are no such literal. -/
def nonDecimalValue : List Char → Option Nat
  | '0' :: marker :: d :: ds =>
    if marker = 'x' ∨ marker = 'X' then radixValue 16 (d :: ds) 0
    else if marker = 'o' ∨ marker = 'O' then radixValue 8 (d :: ds) 0
    else if marker = 'b' ∨ marker = 'B' then radixValue 2 (d :: ds) 0
    else none
  | _ => none

/-- Value of an exponent part `e…`: an optional sign and at least one digit;
the empty list is the absent exponent. -/
def exponentValue : List Char → Option Int
  | [] => some 0
  | marker :: rest =>
    if marker = 'e' ∨ marker = 'E' then
      match rest with
      | '-' :: d :: ds => (digitsValue (d :: ds) 0).map fun n => -(n : Int)
      | '+' :: d :: ds => (digitsValue (d :: ds) 0).map fun n => (n : Int)
      | d :: ds => (digitsValue (d :: ds) 0).map fun n => (n : Int)
      | [] => none
    else none

/-- Removes up to `t` factors 10 from `m`: the result `(m', t')` has
`m' / 10 ^ t' = m / 10 ^ t`. -/
def reduceScale : Nat → Nat → Nat × Nat
  | m, 0 => (m, 0)
  | m, t + 1 => if m % 10 = 0 then reduceScale (m / 10) t else (m, t + 1)

/-- The number `± m * 10 ^ e`. -/
def decimalCount (negative : Bool) (m : Nat) (e : Int) : Count :=
  let sign : Int := if negative then -1 else 1
  if m = 0 then .num 0
  else if 0 ≤ e then .num (sign * ((m * 10 ^ e.toNat : Nat) : Int))
  else
    match reduceScale m (-e).toNat with
    | (m', 0) => .num (sign * (m' : Int))
    | (m', t + 1) => .frac (sign * (m' : Int)) (t + 1)

/-- Value of an unsigned decimal literal: `Infinity`, or digits with an
optional fraction and an optional exponent, at least one digit before or
after the point. -/
def unsignedDecimal (negative : Bool) (cs : List Char) : Count :=
  if cs = ['I', 'n', 'f', 'i', 'n', 'i', 't', 'y'] then .inf negative
  else
    let integerPart := cs.takeWhile isDecimalDigit
    let afterInteger := cs.dropWhile isDecimalDigit
    let fractionPart := match afterInteger with
      | '.' :: rest => rest.takeWhile isDecimalDigit
      | _ => []
    let afterFraction := match afterInteger with
      | '.' :: rest => rest.dropWhile isDecimalDigit
      | _ => afterInteger
    if integerPart = [] ∧ fractionPart = [] then .nan
    else
      match digitsValue (integerPart ++ fractionPart) 0, exponentValue afterFraction with
      | some m, some e => decimalCount negative m (e - (fractionPart.length : Int))
      | _, _ => .nan

/-- The abstract operation `StringToNumber`: white space is dropped at both
ends, the empty string is `0`, a radix literal carries no sign, a decimal
literal may carry one, and every other string is `NaN`. -/
def stringToNumber (s : String) : Count :=
  match jsTrimChars s.data with
  | [] => .num 0
  | c :: cs =>
    match nonDecimalValue (c :: cs) with
    | some n => .num (n : Int)
    | none =>
      if c = '-' then unsignedDecimal true cs
      else if c = '+' then unsignedDecimal false cs
      else unsignedDecimal false (c :: cs)

/-- The abstract operation `ToNumeric` on a counter: a string is converted,
a number is itself. -/
def Count.toNumeric : Count → Count
  | .str s => stringToNumber s
  | c => c

/-- The integer a counter denotes, when it denotes one. -/
def Count.toNumber (c : Count) : Option Int :=
  match c.toNumeric with
  | .num n => some n
  | _ => none

/-- The new value stored by the postfix increment `x++`. -/
def Count.incr (c : Count) : Count :=
  match c.toNumeric with
  | .num n => .num (n + 1)
  | .frac m t => .frac (m + (10 ^ t : Nat)) t
  | .inf negative => .inf negative
  | _ => .nan

/-- Splits `m` into `(s, z)` with `m = s * 10 ^ z` and `s` not divisible by
10, looking at no more than `fuel` digits. -/
def splitZeros : Nat → Nat → Nat × Nat
  | 0, m => (m, 0)
  | fuel + 1, m =>
    if m % 10 = 0 ∧ m ≠ 0 then
      match splitZeros fuel (m / 10) with
      | (s, z) => (s, z + 1)
    else (m, 0)

/-- The operation `Number::toString` on the positive number `m / 10 ^ t`:
with `k` significant digits and the decimal point after digit `n`, plain
digits when `k ≤ n ≤ 21`, a point inside the digits when `0 < n ≤ 21`,
leading zeros when `-6 < n ≤ 0`, and exponent form otherwise. -/
def formatDecimal (m t : Nat) : String :=
  let digits := (toString (splitZeros m m).1).data
  let k : Int := digits.length
  let n : Int := k + ((splitZeros m m).2 : Int) - (t : Int)
  if k ≤ n ∧ n ≤ 21 then String.mk (digits ++ List.replicate (n - k).toNat '0')
  else if 0 < n ∧ n ≤ 21 then String.mk (digits.take n.toNat ++ '.' :: digits.drop n.toNat)
  else if -6 < n ∧ n ≤ 0 then String.mk ('0' :: '.' :: List.replicate (-n).toNat '0' ++ digits)
  else
    let mantissa := match digits with
      | [] => []
      | [d] => [d]
      | d :: rest => d :: '.' :: rest
    String.mk mantissa ++ (if 0 ≤ n - 1 then "e+" else "e-") ++ toString (n - 1).natAbs

/-- The abstract operation `ToString`, applied by `localStorage.setItem`. -/
def Count.toJSString : Count → String
  | .num n => if n = 0 then "0" else (if n < 0 then "-" else "") ++ formatDecimal n.natAbs 0
  | .frac m t => if m = 0 then "0" else (if m < 0 then "-" else "") ++ formatDecimal m.natAbs t
  | .inf negative => if negative then "-Infinity" else "Infinity"
  | .nan => "NaN"
  | .str s => s

/-! ## Shuffling -/

/-- The destructuring swap `[array[i], array[j]] = [array[j], array[i]]` for
indices inside the array. -/
def swap {α : Type} (array : List α) (i j : Nat) : List α :=
  match array[i]?, array[j]? with
  | some x, some y => (array.set i y).set j x
  | _, _ => array

/-- The loop of `shuffleArray` from index `i` down to `1`; `draw i` is the
value of `Math.floor(Math.random() * (i + 1))` at step `i`, an integer in
`0..i`. -/
def shuffleLoop {α : Type} (draw : Nat → Nat) : Nat → List α → List α
  | 0, array => array
  | i + 1, array => shuffleLoop draw i (swap array (i + 1) (draw (i + 1)))

/-- The method `shuffleArray`. -/
def shuffleArray {α : Type} (draw : Nat → Nat) (array : List α) : List α :=
  shuffleLoop draw (array.length - 1) array

/-! ## Data model -/

/-- One `.option-btn` element: the text shown, `dataset.option`, the
`disabled` flag and the class list. -/
structure Btn where
  textContent : String
  option : JSVal
  disabled : Bool
  classes : List String
  deriving DecidableEq, Repr

/-- The field `options` of a payload: missing (or `undefined`), `null`, an
array of strings, a string, or `other` for a value that is not iterable (a
number, a boolean, an object), with the value `first` that reading its
property `0` gives.  Arrays holding values that are no strings are outside the
data model. -/
inductive OptionsField where
  | missing
  | null
  | array (items : List String)
  | text (s : String)
  | other (first : JSVal)
  deriving DecidableEq, Repr

/-- The JSON object answered by `GET ...?action=getQuestion`; `id` and `word`
are taken to be strings, `error` is `none` when the object carries no `error`
field. -/
structure Payload where
  id : String
  word : String
  options : OptionsField
  error : Option String
  deriving DecidableEq, Repr

/-- How the awaited `fetch(url)` and `response.json()` settle: a rejection
with an error message, the JSON value `null`, or a JSON object. -/
inductive FetchOutcome where
  | rejected (message : String)
  | jsonNull
  | json (data : Payload)
  deriving DecidableEq, Repr

/-- A call of `fetch`: the question request on `gasUrl?action=getQuestion`,
or the POST of `submitResult` with its JSON body. -/
inductive Request where
  | getQuestion (endpoint : String)
  | submitResult (endpoint : String) (id : String) (isCorrect : Bool) (timeTaken : Int)
  deriving DecidableEq, Repr

/-- The endpoint `gasUrl` a request was sent to. -/
def Request.endpoint : Request → String
  | .getQuestion e => e
  | .submitResult e _ _ _ => e

/-- True on the question requests. -/
def Request.isGet : Request → Bool
  | .getQuestion _ => true
  | .submitResult _ _ _ _ => false

/-- The keys of `localStorage` the application uses; `none` is an absent key. -/
structure Storage where
  gasUrl : Option String
  correctCount : Option String
  wrongCount : Option String
  deriving DecidableEq, Repr

/-- The `.state` element carrying the class `active`. -/
inductive View where
  | loading
  | quiz
  | feedback
  deriving DecidableEq, Repr

/-- The part of the page the application reads or drives: the option
buttons, the active state element, the settings modal and its text field,
and the word label. -/
structure Dom where
  optionBtns : List Btn
  view : Option View
  modalActive : Bool
  gasUrlInput : String
  currentWord : String
  deriving DecidableEq, Repr

/-- The fields of a `QuizApp` instance together with its environment: the
page, `localStorage` and the log of `setItem` calls, the alerts shown, the
`fetch` calls made (newest first), the number of question fetches still in
flight, the number of pending 2000 ms reload timeouts, and whether the 500 ms
timeout of `init` is still pending. -/
structure QuizApp where
  gasUrl : String
  currentQuestion : Option Payload
  correctAnswer : JSVal
  startTime : Nat
  isAnswered : Bool
  correctCount : Count
  wrongCount : Count
  dom : Dom
  storage : Storage
  writes : List (String × String)
  alerts : List String
  requests : List Request
  pendingFetches : Nat
  pendingReloads : Nat
  startupPending : Bool
  deriving DecidableEq, Repr

/-! ## Methods -/

/-- The expression `localStorage.getItem(key) || 0` of the constructor. -/
def loadCount : Option String → Count
  | none => .num 0
  | some s => if s = "" then .num 0 else .str s

/-- The constructor followed by `init`: fields are read from `localStorage`
and the 500 ms timeout is scheduled. -/
def QuizApp.new (storage : Storage) (dom : Dom) : QuizApp where
  gasUrl := match storage.gasUrl with
    | some s => s
    | none => ""
  currentQuestion := none
  correctAnswer := .null
  startTime := 0
  isAnswered := false
  correctCount := loadCount storage.correctCount
  wrongCount := loadCount storage.wrongCount
  dom := dom
  storage := storage
  writes := []
  alerts := []
  requests := []
  pendingFetches := 0
  pendingReloads := 0
  startupPending := true

/-- The method `setState`. -/
def setState (app : QuizApp) (state : View) : QuizApp :=
  { app with dom := { app.dom with view := some state } }

/-- The method `showModal`. -/
def showModal (app : QuizApp) : QuizApp :=
  { app with dom := { app.dom with gasUrlInput := app.gasUrl, modalActive := true } }

/-- The method `hideModal`. -/
def hideModal (app : QuizApp) : QuizApp :=
  { app with dom := { app.dom with modalActive := false } }

/-- The call `classList.add(name)`. -/
def classListAdd (name : String) (classes : List String) : List String :=
  if name ∈ classes then classes else classes ++ [name]

/-- Conversion of `shuffledOptions[index]` by the setter of `dataset.option`:
a missing element is the string `undefined`. -/
def datasetValue (shuffledOptions : List String) (index : Nat) : String :=
  match shuffledOptions[index]? with
  | some o => o
  | none => "undefined"

/-- Conversion of `shuffledOptions[index]` by the setter of `textContent`: a
missing element is the empty string. -/
def textValue (shuffledOptions : List String) (index : Nat) : String :=
  match shuffledOptions[index]? with
  | some o => o
  | none => ""

/-- The callback of `optionBtns.forEach` in `displayQuestion`, applied from
button `index` on. -/
def renderOptions (shuffledOptions : List String) : Nat → List Btn → List Btn
  | _, [] => []
  | index, _ :: rest =>
    { textContent := textValue shuffledOptions index
      option := .str (datasetValue shuffledOptions index)
      disabled := false
      classes := ["option-btn"] } :: renderOptions shuffledOptions (index + 1) rest

/-- Text of the `TypeError` raised when a property of `undefined` or `null`
is read (wording of V8). -/
def typeErrorMessage (value property : String) : String :=
  "Cannot read properties of " ++ value ++ " (reading '" ++ property ++ "')"

/-- Text of the `TypeError` raised when `[...data.options]` spreads a value
that is not iterable (wording of V8). -/
def notIterableMessage : String := "data.options is not iterable"

/-- The value of `options[0]` for a string: its first UTF-16 code unit, which
is a one-character string, or half of a surrogate pair when the first
character lies outside the basic plane. -/
def firstCodeUnit (s : String) : JSVal :=
  match s.data with
  | [] => .undefined
  | c :: _ => if c.toNat < 0x10000 then .str (String.singleton c) else .other

/-- The second half of `displayQuestion`: the answer `first` read from
`options[0]` is saved, then the copy of the options is shuffled and rendered
on the buttons. -/
def showOptions (app : QuizApp) (first : JSVal) (options : List String)
    (draw : Nat → Nat) : QuizApp :=
  let app := { app with correctAnswer := first }
  let shuffledOptions := shuffleArray draw options
  { app with dom := { app.dom with
      optionBtns := renderOptions shuffledOptions 0 app.dom.optionBtns } }

/-- The method `displayQuestion`.  The second component is the message of the
exception thrown, if any: reading `data.options[0]` throws when `options` is
missing or `null`, and spreading `data.options` throws, after the answer has
been saved, when it is not iterable. -/
def displayQuestion (app : QuizApp) (data : Payload) (draw : Nat → Nat) :
    QuizApp × Option String :=
  let app := { app with dom := { app.dom with currentWord := data.word } }
  match data.options with
  | .missing => (app, some (typeErrorMessage "undefined" "0"))
  | .null => (app, some (typeErrorMessage "null" "0"))
  | .other first => ({ app with correctAnswer := first }, some notIterableMessage)
  | .array options =>
    (showOptions app (match options.head? with
                      | some o => .str o
                      | none => .undefined) options draw, none)
  | .text s => (showOptions app (firstCodeUnit s) (s.data.map String.singleton) draw, none)

/-- The part of `loadQuestion` before the first `await`: the loading state is
shown, the answered flag is cleared and `fetch` is called. -/
def loadQuestionBegin (app : QuizApp) : QuizApp :=
  let app := setState app .loading
  { app with
    isAnswered := false
    requests := .getQuestion app.gasUrl :: app.requests
    pendingFetches := app.pendingFetches + 1 }

/-- The rest of the `try` block of `loadQuestion` once the fetch has settled
with `outcome` at time `now`.  The second component is the message of the
exception thrown, if any. -/
def loadQuestionTry (app : QuizApp) (outcome : FetchOutcome) (now : Nat)
    (draw : Nat → Nat) : QuizApp × Option String :=
  match outcome with
  | .rejected message => (app, some message)
  | .jsonNull => (app, some (typeErrorMessage "null" "error"))
  | .json data =>
    match data.error.filter jsTruthy with
    | some e => (app, some e)
    | none =>
      let app := { app with currentQuestion := some data }
      match displayQuestion app data draw with
      | (app, some message) => (app, some message)
      | (app, none) => ({ setState app .quiz with startTime := now }, none)

/-- The settled fetch makes `loadQuestion` throw before the payload is stored:
the fetch rejects, the body is `null`, or it carries a non-empty `error`. -/
def FetchOutcome.refused : FetchOutcome → Bool
  | .rejected _ => true
  | .jsonNull => true
  | .json data => (data.error.filter jsTruthy).isSome

/-- True on the values of `options` that `displayQuestion` can spread. -/
def OptionsField.iterable : OptionsField → Bool
  | .array _ => true
  | .text _ => true
  | _ => false

/-- The settled fetch brings a payload that `displayQuestion` renders on the
buttons: it is not refused and its `options` can be spread. -/
def FetchOutcome.displayed : FetchOutcome → Bool
  | .json data => !(FetchOutcome.json data).refused && data.options.iterable
  | _ => false

/-- Text of the alert raised by the `catch` block of `loadQuestion`. -/
def loadFailureAlert (message : String) : String :=
  "無法從 GAS 載入題目，請檢查 URL 設定。\n錯誤: " ++ message

/-- The method `loadQuestion` after its `await`: the `try` block, and the
`catch` block when it throws. -/
def loadQuestionResume (app : QuizApp) (outcome : FetchOutcome) (now : Nat)
    (draw : Nat → Nat) : QuizApp :=
  match loadQuestionTry app outcome now draw with
  | (app, none) => app
  | (app, some message) =>
    showModal { app with alerts := loadFailureAlert message :: app.alerts }

/-- The loop of `selectOption` over all buttons: each is disabled and the
ones carrying the correct answer are highlighted. -/
def revealAnswer (correctAnswer : JSVal) (btn : Btn) : Btn :=
  { btn with
    disabled := true
    classes := if btn.option = correctAnswer then classListAdd "correct" btn.classes
               else btn.classes }

/-- The method `selectOption`, called at time `now`.  It stops early where the
source throws: on a button index that does not exist and, after the
statistics are saved, on reading `id` of a `currentQuestion` that is `null`. -/
def selectOption (app : QuizApp) (index : Nat) (now : Nat) : QuizApp :=
  if app.isAnswered then app
  else
    let app := { app with isAnswered := true }
    let timeTaken : Int := (now : Int) - (app.startTime : Int)
    match app.dom.optionBtns[index]? with
    | none => app
    | some btn =>
      let isCorrect : Bool := decide (btn.option = app.correctAnswer)
      let marked := app.dom.optionBtns.set index
        { btn with classes := classListAdd (if isCorrect then "correct" else "incorrect")
                                btn.classes }
      let app := { app with dom := { app.dom with
                      optionBtns := marked.map (revealAnswer app.correctAnswer) } }
      let app := if isCorrect then { app with correctCount := app.correctCount.incr }
                 else { app with wrongCount := app.wrongCount.incr }
      let app := { app with
        storage := { app.storage with
          correctCount := some app.correctCount.toJSString
          wrongCount := some app.wrongCount.toJSString }
        writes := ("wrongCount", app.wrongCount.toJSString) ::
                  ("correctCount", app.correctCount.toJSString) :: app.writes }
      let app := setState app .feedback
      match app.currentQuestion with
      | none => app
      | some question =>
        { app with
          requests := .submitResult app.gasUrl question.id isCorrect timeTaken :: app.requests
          pendingReloads := app.pendingReloads + 1 }

/-- The method `saveSettings`, reading the text field of the modal. -/
def saveSettings (app : QuizApp) : QuizApp :=
  let url := jsTrim app.dom.gasUrlInput
  if url = "" then { app with alerts := "請輸入有效的 GAS Web App URL" :: app.alerts }
  else
    let app := { app with
      gasUrl := url
      storage := { app.storage with gasUrl := some url }
      writes := ("gasUrl", url) :: app.writes }
    let app := hideModal app
    let app := { app with alerts := "設定已儲存！" :: app.alerts }
    loadQuestionBegin app

/-- The method `resetStats`; `confirmed` is the answer given to `confirm`. -/
def resetStats (app : QuizApp) (confirmed : Bool) : QuizApp :=
  if confirmed then
    { app with
      correctCount := .num 0
      wrongCount := .num 0
      storage := { app.storage with correctCount := some "0", wrongCount := some "0" }
      writes := ("wrongCount", "0") :: ("correctCount", "0") :: app.writes
      alerts := "統計已重置" :: app.alerts }
  else app

/-- The callback of the 500 ms timeout of `init`. -/
def startup (app : QuizApp) : QuizApp :=
  if app.gasUrl ≠ "" then loadQuestionBegin app else showModal app

/-! ## Timer display -/

/-- The call `seconds.toString().padStart(2, "0")`. -/
def padStart2 (s : String) : String :=
  if s.length < 2 then String.mk (List.replicate (2 - s.length) '0') ++ s else s

/-- Text written to the timer label by a tick `t` milliseconds after
`startTime`. -/
def timerText (t : Nat) : String :=
  let elapsed := t / 1000
  let minutes := elapsed / 60
  let seconds := elapsed % 60
  toString minutes ++ ":" ++ padStart2 (toString seconds)

/-- The number `progress` computed by a tick `t` milliseconds after
`startTime`, as an exact rational. -/
def timerProgress (t : Nat) : ℚ :=
  let elapsed := t / 1000
  min (((elapsed : ℚ) / 30) * 100) 100

/-- The two decimal digits of a number below 100, tens first. -/
def twoDigits (n : Nat) : String :=
  String.mk [Char.ofNat (48 + n / 10), Char.ofNat (48 + n % 10)]

/-! ## Events -/

/-- What the event loop can deliver to the application. -/
inductive Event where
  | startupDelay
  | fetchDone (outcome : FetchOutcome) (now : Nat) (draw : Nat → Nat)
  | click (index : Nat) (now : Nat)
  | saveSettings (input : String)
  | resetStats (confirmed : Bool)
  | feedbackDelay
  | openSettings
  | closeSettings

/-- One step of the event loop.  A timeout fires only while it is pending, a
fetch settles only while one is in flight, and a click reaches `selectOption`
only through a button that exists and is not disabled.  `saveSettings input`
is a click on the save button with `input` typed in the text field. -/
def step (app : QuizApp) : Event → QuizApp
  | .startupDelay =>
    if app.startupPending then startup { app with startupPending := false } else app
  | .fetchDone outcome now draw =>
    if app.pendingFetches = 0 then app
    else loadQuestionResume { app with pendingFetches := app.pendingFetches - 1 } outcome now draw
  | .click index now =>
    match app.dom.optionBtns[index]? with
    | some btn => if btn.disabled then app else selectOption app index now
    | none => app
  | .saveSettings input =>
    saveSettings { app with dom := { app.dom with gasUrlInput := input } }
  | .resetStats confirmed => resetStats app confirmed
  | .feedbackDelay =>
    if app.pendingReloads = 0 then app
    else loadQuestionBegin { app with pendingReloads := app.pendingReloads - 1 }
  | .openSettings => showModal app
  | .closeSettings => hideModal app

/-- The events that call `loadQuestion`: the two timeouts, and saving a
non-blank endpoint. -/
def Event.beginsLoad : Event → Bool
  | .startupDelay => true
  | .feedbackDelay => true
  | .saveSettings input => decide (jsTrim input ≠ "")
  | _ => false

/-- The event saves a non-blank endpoint. -/
def Event.savesEndpoint : Event → Bool
  | .saveSettings input => decide (jsTrim input ≠ "")
  | _ => false

/-- The event is a settled fetch whose payload is rendered on the buttons. -/
def Event.rendersQuestion : Event → Bool
  | .fetchDone outcome _ _ => outcome.displayed
  | _ => false

/-- The event is a settled fetch whose payload `loadQuestion` stores as the
current question. -/
def Event.replacesQuestion : Event → Bool
  | .fetchDone outcome _ _ => !outcome.refused
  | _ => false

/-- The event is a confirmed reset of the statistics. -/
def Event.confirmsReset : Event → Bool
  | .resetStats confirmed => confirmed
  | _ => false

/-- The state after a sequence of events. -/
def run (app : QuizApp) (events : List Event) : QuizApp :=
  events.foldl step app

/-- Along the run of `events` from `app`, a non-blank endpoint is saved only
while neither the startup timeout nor a Feedback delay is pending. -/
def savesWhenIdle : QuizApp → List Event → Bool
  | _, [] => true
  | app, e :: rest =>
    (!e.savesEndpoint || (!app.startupPending && app.pendingReloads == 0)) &&
      savesWhenIdle (step app e) rest

/-! ## Sample data -/

/-- A page with three untouched option buttons, showing the loading state. -/
def samplePage : Dom where
  optionBtns := List.replicate 3
    { textContent := "", option := .undefined, disabled := false, classes := ["option-btn"] }
  view := some .loading
  modalActive := false
  gasUrlInput := ""
  currentWord := ""

/-- The question of the end-to-end example. -/
def sampleQuestion : Payload where
  id := "q1"
  word := "apple"
  options := .array ["蘋果", "香蕉", "橘子"]
  error := none

/-- A store holding an endpoint and no statistics. -/
def sampleStore : Storage where
  gasUrl := some "https://gas.example/exec"
  correctCount := none
  wrongCount := none

/-- A store with no key set. -/
def sampleEmptyStore : Storage where
  gasUrl := none
  correctCount := none
  wrongCount := none

/-- The sample application started on a store whose `correctCount` holds
`abc`, once its first question is on the page. -/
def sampleMalformed : QuizApp :=
  run (QuizApp.new { gasUrl := some "https://gas.example/exec", correctCount := some "abc",
                     wrongCount := none } samplePage)
    [.startupDelay, .fetchDone (.json sampleQuestion) 1000 fun _ => 0]

/-- The sample application once its first question is on the page. -/
def sampleLoaded : QuizApp :=
  run (QuizApp.new sampleStore samplePage)
    [.startupDelay, .fetchDone (.json sampleQuestion) 1000 fun _ => 0]

/-! ## Invariants of the event loop -/

/-- Every request made so far went to a non-empty endpoint, and while no
endpoint is configured there is no current question and nothing pending that
could lead to a request. -/
def EndpointInv (app : QuizApp) : Prop :=
  (∀ r ∈ app.requests, r.endpoint ≠ "") ∧
  (app.gasUrl = "" →
    app.currentQuestion = none ∧ app.pendingFetches = 0 ∧ app.pendingReloads = 0)

/-- At most one Feedback delay is pending; while one is pending the answered
flag is set and the startup timeout has fired; and until the startup timeout
fires no question is current, no fetch is in flight and no Feedback delay is
pending. -/
def ReloadInv (app : QuizApp) : Prop :=
  app.pendingReloads ≤ 1 ∧
  (app.pendingReloads = 1 → app.isAnswered = true ∧ app.startupPending = false) ∧
  (app.startupPending = true →
    app.currentQuestion = none ∧ app.pendingFetches = 0 ∧ app.pendingReloads = 0)

/-! # Theorems -/

/-! ## Shuffling: lemmas -/

theorem cons_set_perm {α : Type} (a y : α) :
    ∀ (t : List α) (j : Nat), t[j]? = some y → (y :: t.set j a).Perm (a :: t)
  | [], j, h => by simp at h
  | b :: t, 0, h => by
    simp only [List.getElem?_cons_zero, Option.some.injEq] at h
    subst h
    simpa using List.Perm.swap a b t
  | b :: t, j + 1, h => by
    simp only [List.getElem?_cons_succ] at h
    have ih := cons_set_perm a y t j h
    simp only [List.set_cons_succ]
    exact (List.Perm.swap b y _).trans (((ih.cons b)).trans (List.Perm.swap a b t))

theorem swap_perm {α : Type} : ∀ (array : List α) (i j : Nat), (swap array i j).Perm array
  | [], i, j => by simp [swap]
  | a :: t, 0, 0 => by
    simp [swap]
  | a :: t, 0, j + 1 => by
    unfold swap
    cases h : t[j]? with
    | none => simp [h]
    | some y => simpa [h] using cons_set_perm a y t j h
  | a :: t, i + 1, 0 => by
    unfold swap
    cases h : t[i]? with
    | none => simp [h]
    | some x => simpa [h] using cons_set_perm a x t i h
  | a :: t, i + 1, j + 1 => by
    have ih := swap_perm t i j
    unfold swap at ih ⊢
    cases hi : t[i]? with
    | none => simp [hi]
    | some x =>
      cases hj : t[j]? with
      | none => simp [hi, hj]
      | some y =>
        simp only [hi, hj] at ih
        simpa [hi, hj] using ih

theorem shuffleLoop_perm {α : Type} (draw : Nat → Nat) :
    ∀ (i : Nat) (array : List α), (shuffleLoop draw i array).Perm array
  | 0, array => by simp [shuffleLoop]
  | i + 1, array => by
    simp only [shuffleLoop]
    exact (shuffleLoop_perm draw i _).trans (swap_perm array _ _)

theorem renderOptions_options (shuffled : List String) :
    ∀ (btns : List Btn) (k : Nat), k + btns.length = shuffled.length →
      (renderOptions shuffled k btns).map Btn.option = (shuffled.drop k).map JSVal.str
  | [], k, h => by
    have hk : shuffled.length ≤ k := by simp at h; omega
    simp [renderOptions, List.drop_eq_nil_of_le hk]
  | b :: btns, k, h => by
    have hk : k < shuffled.length := by simp at h; omega
    have ih := renderOptions_options shuffled btns (k + 1) (by simp at h ⊢; omega)
    rw [List.drop_eq_getElem_cons hk]
    simp only [renderOptions, List.map_cons, ih, datasetValue, List.getElem?_eq_getElem hk]

theorem renderOptions_getElem_at (shuffled : List String) :
    ∀ (btns : List Btn) (k i : Nat), i < btns.length →
      (renderOptions shuffled k btns)[i]? = some
        { textContent := textValue shuffled (k + i)
          option := .str (datasetValue shuffled (k + i))
          disabled := false
          classes := ["option-btn"] }
  | [], k, i, h => by simp at h
  | b :: btns, k, 0, h => by simp [renderOptions]
  | b :: btns, k, i + 1, h => by
    have ih := renderOptions_getElem_at shuffled btns (k + 1) i (by simpa using h)
    simp only [renderOptions, List.getElem?_cons_succ, ih]
    have : k + 1 + i = k + (i + 1) := by omega
    rw [this]

/-- C2 (counterexample): a question with four options is displayed on a page
with three option buttons.  The shuffle is a permutation of the four options,
but the buttons show only the first three shuffled options, which are no
permutation of the question's options, and the correct answer is on no
button. -/
theorem displayQuestion_shows_only_as_many_as_buttons :
    samplePage.optionBtns.length = 3 ∧
    shuffleArray (fun _ => 0) ["a", "b", "c", "d"] = ["b", "c", "d", "a"] ∧
    (displayQuestion (QuizApp.new sampleStore samplePage)
      { id := "q", word := "w", options := .array ["a", "b", "c", "d"], error := none }
      (fun _ => 0)).1.dom.optionBtns.map Btn.option = [.str "b", .str "c", .str "d"] ∧
    ¬ ((displayQuestion (QuizApp.new sampleStore samplePage)
      { id := "q", word := "w", options := .array ["a", "b", "c", "d"], error := none }
      (fun _ => 0)).1.dom.optionBtns.map Btn.option).Perm
        (["a", "b", "c", "d"].map JSVal.str) ∧
    (displayQuestion (QuizApp.new sampleStore samplePage)
      { id := "q", word := "w", options := .array ["a", "b", "c", "d"], error := none }
      (fun _ => 0)).1.correctAnswer = .str "a" ∧
    JSVal.str "a" ∉ (displayQuestion (QuizApp.new sampleStore samplePage)
      { id := "q", word := "w", options := .array ["a", "b", "c", "d"], error := none }
      (fun _ => 0)).1.dom.optionBtns.map Btn.option := by
  refine ⟨by decide, by decide, by decide, ?_, by decide, by decide⟩
  intro h
  exact absurd h.length_eq (by decide)

/-- C2 (amended): for every list of option strings and every sequence of
draws with `draw i ≤ i`, `shuffleArray` returns a permutation of its input
(same length, same number of occurrences of every string); `displayQuestion`
puts the shuffled option `i` on button `i`, for every button that exists, so
when the page has as many option buttons as the question has options the
options displayed are a permutation of the question's options. -/
theorem shuffleArray_is_permutation (draw : Nat → Nat) (options : List String)
    (_hdraw : ∀ i, draw i ≤ i) :
    (shuffleArray draw options).Perm options ∧
    (shuffleArray draw options).length = options.length ∧
    (∀ o, (shuffleArray draw options).count o = options.count o) ∧
    (∀ (app : QuizApp) (data : Payload), data.options = .array options →
      (∀ (i : Nat) (shown : String), (shuffleArray draw options)[i]? = some shown →
        i < app.dom.optionBtns.length →
        ((displayQuestion app data draw).1.dom.optionBtns[i]?).map Btn.option =
          some (.str shown)) ∧
      (app.dom.optionBtns.length = options.length →
        ((displayQuestion app data draw).1.dom.optionBtns.map Btn.option).Perm
          (options.map JSVal.str))) := by
  have hperm : (shuffleArray draw options).Perm options := shuffleLoop_perm draw _ options
  refine ⟨hperm, hperm.length_eq, fun o => hperm.count_eq o, ?_⟩
  intro app data hdata
  refine ⟨?_, ?_⟩
  · intro i shown hshown hi
    have hr := renderOptions_getElem_at (shuffleArray draw options) app.dom.optionBtns 0 i hi
    simp only [Nat.zero_add, datasetValue, hshown] at hr
    simp only [displayQuestion, hdata, showOptions, hr, Option.map_some']
  · intro hlen
    have hr := renderOptions_options (shuffleArray draw options) app.dom.optionBtns 0
      (by simp [hlen, hperm.length_eq])
    simp only [displayQuestion, hdata, showOptions, hr, List.drop_zero]
    exact hperm.map _

theorem shuffleArray_is_permutation_witness :
    (shuffleArray (fun _ => 0) ["a", "b", "c", "d"]).Perm ["a", "b", "c", "d"] ∧
    ((displayQuestion (QuizApp.new sampleStore samplePage) sampleQuestion
      (fun _ => 0)).1.dom.optionBtns.map Btn.option).Perm
        (["蘋果", "香蕉", "橘子"].map JSVal.str) :=
  ⟨(shuffleArray_is_permutation (fun _ => 0) ["a", "b", "c", "d"] (fun _ => Nat.zero_le _)).1,
   ((shuffleArray_is_permutation (fun _ => 0) ["蘋果", "香蕉", "橘子"]
      (fun _ => Nat.zero_le _)).2.2.2 (QuizApp.new sampleStore samplePage) sampleQuestion
      rfl).2 (by decide)⟩
/-! ## Numerals -/

theorem digitChar_decimal (m : Nat) (h : m < 10) :
    isDecimalDigit (Nat.digitChar m) = true ∧ (Nat.digitChar m).toNat - 48 = m := by
  interval_cases m <;> decide

theorem digitsValue_toDigitsCore :
    ∀ (fuel n : Nat) (ds : List Char), n < fuel →
      digitsValue (Nat.toDigitsCore 10 fuel n ds) 0 = digitsValue ds n
  | 0, n, ds, h => by omega
  | fuel + 1, n, ds, h => by
    have hd := digitChar_decimal (n % 10) (Nat.mod_lt _ (by decide))
    have hn : n / 10 * 10 + n % 10 = n := by omega
    simp only [Nat.toDigitsCore]
    split
    · next h0 =>
      have hmod : n % 10 = n := by omega
      rw [hmod] at hd ⊢
      simp [digitsValue, hd.1, hd.2]
    · next h0 =>
      rw [digitsValue_toDigitsCore fuel (n / 10) _ (by omega)]
      simp [digitsValue, hd.1, hd.2, hn]

theorem toDigitsCore_decimal :
    ∀ (fuel n : Nat) (ds : List Char), (∀ c ∈ ds, isDecimalDigit c = true) →
      ∀ c ∈ Nat.toDigitsCore 10 fuel n ds, isDecimalDigit c = true
  | 0, n, ds, h => by simpa [Nat.toDigitsCore] using h
  | fuel + 1, n, ds, h => by
    have hd := digitChar_decimal (n % 10) (Nat.mod_lt _ (by decide))
    have hds : ∀ c ∈ Nat.digitChar (n % 10) :: ds, isDecimalDigit c = true := by
      intro c hc
      rcases List.mem_cons.1 hc with rfl | hc
      · exact hd.1
      · exact h c hc
    simp only [Nat.toDigitsCore]
    split
    · exact hds
    · exact toDigitsCore_decimal fuel (n / 10) _ hds

theorem toDigitsCore_ne_nil :
    ∀ (fuel n : Nat) (ds : List Char), ds ≠ [] → Nat.toDigitsCore 10 fuel n ds ≠ []
  | 0, n, ds, h => by simpa [Nat.toDigitsCore] using h
  | fuel + 1, n, ds, h => by
    simp only [Nat.toDigitsCore]
    split
    · simp
    · exact toDigitsCore_ne_nil fuel (n / 10) _ (by simp)

theorem toDigits_ne_nil (n : Nat) : Nat.toDigits 10 n ≠ [] := by
  simp only [Nat.toDigits, Nat.toDigitsCore]
  split
  · simp
  · exact toDigitsCore_ne_nil n (n / 10) _ (by simp)

theorem decimal_not_whiteSpace (c : Char) (h : isDecimalDigit c = true) :
    jsIsWhiteSpace c = false := by
  simp only [isDecimalDigit, Bool.and_eq_true, decide_eq_true_eq] at h
  simp only [jsIsWhiteSpace, Bool.or_eq_false_iff, Bool.and_eq_false_iff, beq_eq_false_iff_ne,
    decide_eq_false_iff_not]
  omega

theorem jsTrimChars_decimal (cs : List Char) (h : ∀ c ∈ cs, isDecimalDigit c = true) :
    jsTrimChars cs = cs := by
  have h1 : cs.dropWhile jsIsWhiteSpace = cs := by
    rw [List.dropWhile_eq_self_iff]
    intro hl
    have hmem : cs.get ⟨0, hl⟩ ∈ cs := List.get_mem cs 0 hl
    have hws := decimal_not_whiteSpace _ (h _ hmem)
    simpa using hws
  have h2 : cs.rdropWhile jsIsWhiteSpace = cs := by
    rw [List.rdropWhile_eq_self_iff]
    intro hl
    simp [decimal_not_whiteSpace _ (h _ (List.getLast_mem hl))]
  simp only [jsTrimChars, h1, h2]

theorem nonDecimalValue_decimal (cs : List Char) (h : ∀ c ∈ cs, isDecimalDigit c = true) :
    nonDecimalValue cs = none := by
  unfold nonDecimalValue
  split
  · next marker d ds =>
    have hm : isDecimalDigit marker = true := h marker (by simp)
    have h1 : marker ≠ 'x' := fun e => absurd (e ▸ hm) (by decide)
    have h2 : marker ≠ 'X' := fun e => absurd (e ▸ hm) (by decide)
    have h3 : marker ≠ 'o' := fun e => absurd (e ▸ hm) (by decide)
    have h4 : marker ≠ 'O' := fun e => absurd (e ▸ hm) (by decide)
    have h5 : marker ≠ 'b' := fun e => absurd (e ▸ hm) (by decide)
    have h6 : marker ≠ 'B' := fun e => absurd (e ▸ hm) (by decide)
    simp [h1, h2, h3, h4, h5, h6]
  · rfl

theorem unsignedDecimal_digits (cs : List Char) (n : Nat) (hne : cs ≠ [])
    (h : ∀ c ∈ cs, isDecimalDigit c = true) (hval : digitsValue cs 0 = some n) :
    unsignedDecimal false cs = .num (n : Int) := by
  have htake : cs.takeWhile isDecimalDigit = cs := List.takeWhile_eq_self_iff.2 h
  have hdrop : cs.dropWhile isDecimalDigit = [] := List.dropWhile_eq_nil_iff.2 h
  have hinf : cs ≠ ['I', 'n', 'f', 'i', 'n', 'i', 't', 'y'] := by
    intro e
    have := h 'I' (by rw [e]; simp)
    exact absurd this (by decide)
  simp only [unsignedDecimal, hinf, if_false, htake, hdrop, List.append_nil, hval, exponentValue,
    List.length_nil, hne, false_and]
  by_cases h0 : n = 0
  · simp [decimalCount, h0]
  · simp [decimalCount, h0]

/-- The decimal string of a natural number reads back as that number. -/
theorem stringToNumber_toString (n : Nat) : stringToNumber (toString n) = .num (n : Int) := by
  have hdec : ∀ c ∈ Nat.toDigits 10 n, isDecimalDigit c = true :=
    toDigitsCore_decimal _ _ _ (by simp)
  have hval : digitsValue (Nat.toDigits 10 n) 0 = some n := by
    simp only [Nat.toDigits]
    rw [digitsValue_toDigitsCore _ _ _ (Nat.lt_succ_self n)]
    rfl
  have hdata : (toString n).data = Nat.toDigits 10 n := rfl
  unfold stringToNumber
  rw [hdata, jsTrimChars_decimal _ hdec]
  split
  · next heq => exact absurd heq (toDigits_ne_nil n)
  · next c cs heq =>
    have hc : isDecimalDigit c = true := hdec c (by rw [heq]; simp)
    have h1 : c ≠ '-' := fun e => absurd (e ▸ hc) (by decide)
    have h2 : c ≠ '+' := fun e => absurd (e ▸ hc) (by decide)
    rw [← heq, nonDecimalValue_decimal _ hdec]
    simp only [h1, h2, if_false]
    exact unsignedDecimal_digits _ n (toDigits_ne_nil n) hdec hval
/-! ## Statistics loaded at startup -/

theorem toString_nat_ne_empty (n : Nat) : toString n ≠ "" := by
  intro h
  have hdata : (toString n).data = Nat.toDigits 10 n := rfl
  rw [h] at hdata
  exact toDigits_ne_nil n hdata.symm

theorem loadCount_spec (stored : Option String) :
    ((stored = none ∨ stored = some "") → loadCount stored = .num 0) ∧
    (∀ s, s ≠ "" → stored = some s → loadCount stored = .str s) ∧
    (∀ n : Nat, stored = some (toString n) → (loadCount stored).toNumber = some (n : Int)) := by
  refine ⟨?_, ?_, ?_⟩
  · rintro (h | h) <;> simp [h, loadCount]
  · intro s hs h
    simp [h, loadCount, hs]
  · intro n h
    simp [h, loadCount, toString_nat_ne_empty, Count.toNumber, Count.toNumeric,
      stringToNumber_toString]

/-- C6 (counterexample): with `abc` stored under `correctCount` and `-3` under
`wrongCount`, the counters loaded at startup are these strings: the first is
not 0 and has no numeric value, the second is negative. -/
theorem load_keeps_malformed_counter :
    (QuizApp.new { gasUrl := none, correctCount := some "abc", wrongCount := some "-3" }
      samplePage).correctCount = .str "abc" ∧
    (QuizApp.new { gasUrl := none, correctCount := some "abc", wrongCount := some "-3" }
      samplePage).correctCount ≠ .num 0 ∧
    (QuizApp.new { gasUrl := none, correctCount := some "abc", wrongCount := some "-3" }
      samplePage).correctCount.toNumber = none ∧
    (QuizApp.new { gasUrl := none, correctCount := some "abc", wrongCount := some "-3" }
      samplePage).wrongCount.toNumber = some (-3) := by
  decide

/-- C6 (amended): a counter loaded at startup is 0 when its key is absent or
holds the empty string and is otherwise the stored string itself, unparsed;
when the key holds the decimal string of an integer `n ≥ 0` the loaded counter
has the numeric value `n`. -/
theorem load_counts_from_storage (storage : Storage) (dom : Dom) :
    ((storage.correctCount = none ∨ storage.correctCount = some "") →
      (QuizApp.new storage dom).correctCount = .num 0) ∧
    (∀ s, s ≠ "" → storage.correctCount = some s →
      (QuizApp.new storage dom).correctCount = .str s) ∧
    (∀ n : Nat, storage.correctCount = some (toString n) →
      (QuizApp.new storage dom).correctCount.toNumber = some (n : Int)) ∧
    ((storage.wrongCount = none ∨ storage.wrongCount = some "") →
      (QuizApp.new storage dom).wrongCount = .num 0) ∧
    (∀ s, s ≠ "" → storage.wrongCount = some s →
      (QuizApp.new storage dom).wrongCount = .str s) ∧
    (∀ n : Nat, storage.wrongCount = some (toString n) →
      (QuizApp.new storage dom).wrongCount.toNumber = some (n : Int)) := by
  have hc := loadCount_spec storage.correctCount
  have hw := loadCount_spec storage.wrongCount
  exact ⟨hc.1, hc.2.1, hc.2.2, hw.1, hw.2.1, hw.2.2⟩

theorem load_counts_from_storage_witness :
    (QuizApp.new { gasUrl := none, correctCount := some "5", wrongCount := none }
      samplePage).correctCount.toNumber = some 5 ∧
    (QuizApp.new { gasUrl := none, correctCount := some "5", wrongCount := none }
      samplePage).correctCount = .str "5" ∧
    (QuizApp.new { gasUrl := none, correctCount := some "5", wrongCount := none }
      samplePage).wrongCount = .num 0 :=
  ⟨(load_counts_from_storage
      { gasUrl := none, correctCount := some "5", wrongCount := none } samplePage).2.2.1 5 rfl,
   (load_counts_from_storage
      { gasUrl := none, correctCount := some "5", wrongCount := none } samplePage).2.1 "5"
      (by decide) rfl,
   (load_counts_from_storage
      { gasUrl := none, correctCount := some "5", wrongCount := none } samplePage).2.2.2.1
      (Or.inl rfl)⟩

/-! ## What each method leaves unchanged -/

theorem loadQuestionBegin_frame (app : QuizApp) :
    (loadQuestionBegin app).gasUrl = app.gasUrl ∧
    (loadQuestionBegin app).currentQuestion = app.currentQuestion ∧
    (loadQuestionBegin app).correctAnswer = app.correctAnswer ∧
    (loadQuestionBegin app).correctCount = app.correctCount ∧
    (loadQuestionBegin app).wrongCount = app.wrongCount ∧
    (loadQuestionBegin app).storage = app.storage ∧
    (loadQuestionBegin app).writes = app.writes ∧
    (loadQuestionBegin app).dom.optionBtns = app.dom.optionBtns ∧
    (loadQuestionBegin app).pendingReloads = app.pendingReloads ∧
    (loadQuestionBegin app).startupPending = app.startupPending ∧
    (loadQuestionBegin app).isAnswered = false ∧
    (loadQuestionBegin app).requests = .getQuestion app.gasUrl :: app.requests ∧
    (loadQuestionBegin app).pendingFetches = app.pendingFetches + 1 :=
  ⟨rfl, rfl, rfl, rfl, rfl, rfl, rfl, rfl, rfl, rfl, rfl, rfl, rfl⟩

theorem loadQuestionResume_frame (app : QuizApp) (outcome : FetchOutcome) (now : Nat)
    (draw : Nat → Nat) :
    (loadQuestionResume app outcome now draw).gasUrl = app.gasUrl ∧
    (loadQuestionResume app outcome now draw).isAnswered = app.isAnswered ∧
    (loadQuestionResume app outcome now draw).correctCount = app.correctCount ∧
    (loadQuestionResume app outcome now draw).wrongCount = app.wrongCount ∧
    (loadQuestionResume app outcome now draw).storage = app.storage ∧
    (loadQuestionResume app outcome now draw).writes = app.writes ∧
    (loadQuestionResume app outcome now draw).requests = app.requests ∧
    (loadQuestionResume app outcome now draw).pendingFetches = app.pendingFetches ∧
    (loadQuestionResume app outcome now draw).pendingReloads = app.pendingReloads ∧
    (loadQuestionResume app outcome now draw).startupPending = app.startupPending := by
  cases outcome with
  | rejected m => exact ⟨rfl, rfl, rfl, rfl, rfl, rfl, rfl, rfl, rfl, rfl⟩
  | jsonNull => exact ⟨rfl, rfl, rfl, rfl, rfl, rfl, rfl, rfl, rfl, rfl⟩
  | json data =>
    cases hf : data.error.filter jsTruthy with
    | some e =>
      simp only [loadQuestionResume, loadQuestionTry, hf]
      exact ⟨rfl, rfl, rfl, rfl, rfl, rfl, rfl, rfl, rfl, rfl⟩
    | none =>
      cases ho : data.options <;>
        simp only [loadQuestionResume, loadQuestionTry, hf, displayQuestion, ho] <;>
        exact ⟨rfl, rfl, rfl, rfl, rfl, rfl, rfl, rfl, rfl, rfl⟩

/-- The buttons stay as they are unless a payload with options is rendered. -/
theorem loadQuestionResume_buttons (app : QuizApp) (outcome : FetchOutcome) (now : Nat)
    (draw : Nat → Nat) (h : outcome.displayed = false) :
    (loadQuestionResume app outcome now draw).dom.optionBtns = app.dom.optionBtns := by
  cases outcome with
  | rejected m => rfl
  | jsonNull => rfl
  | json data =>
    cases hf : data.error.filter jsTruthy with
    | some e =>
      simp only [loadQuestionResume, loadQuestionTry, hf]
      rfl
    | none =>
      cases ho : data.options with
      | array items =>
        simp [FetchOutcome.displayed, FetchOutcome.refused, hf, ho, OptionsField.iterable] at h
      | text t =>
        simp [FetchOutcome.displayed, FetchOutcome.refused, hf, ho, OptionsField.iterable] at h
      | missing =>
        simp only [loadQuestionResume, loadQuestionTry, hf, displayQuestion, ho]
        rfl
      | null =>
        simp only [loadQuestionResume, loadQuestionTry, hf, displayQuestion, ho]
        rfl
      | other first =>
        simp only [loadQuestionResume, loadQuestionTry, hf, displayQuestion, ho]
        rfl

/-- A refused fetch leaves the current question, the saved answer and the
buttons as they are. -/
theorem loadQuestionResume_refused (app : QuizApp) (outcome : FetchOutcome) (now : Nat)
    (draw : Nat → Nat) (h : outcome.refused = true) :
    (loadQuestionResume app outcome now draw).currentQuestion = app.currentQuestion ∧
    (loadQuestionResume app outcome now draw).correctAnswer = app.correctAnswer ∧
    (loadQuestionResume app outcome now draw).dom.optionBtns = app.dom.optionBtns := by
  cases outcome with
  | rejected m => exact ⟨rfl, rfl, rfl⟩
  | jsonNull => exact ⟨rfl, rfl, rfl⟩
  | json data =>
    cases hf : data.error.filter jsTruthy with
    | some e =>
      simp only [loadQuestionResume, loadQuestionTry, hf]
      exact ⟨rfl, rfl, rfl⟩
    | none => simp [FetchOutcome.refused, hf] at h

theorem selectOption_answered (app : QuizApp) (index now : Nat) (h : app.isAnswered = true) :
    selectOption app index now = app := by
  simp [selectOption, h]

theorem selectOption_frame (app : QuizApp) (index now : Nat) :
    (selectOption app index now).gasUrl = app.gasUrl ∧
    (selectOption app index now).currentQuestion = app.currentQuestion ∧
    (selectOption app index now).correctAnswer = app.correctAnswer ∧
    (selectOption app index now).pendingFetches = app.pendingFetches ∧
    (selectOption app index now).startupPending = app.startupPending ∧
    (selectOption app index now).storage.gasUrl = app.storage.gasUrl := by
  by_cases hans : app.isAnswered = true
  · simp [selectOption, hans]
  · cases hbtn : app.dom.optionBtns[index]? with
    | none => simp [selectOption, hans, hbtn]
    | some btn =>
      by_cases hc : btn.option = app.correctAnswer <;>
        cases hq : app.currentQuestion <;>
        simp [selectOption, hans, hbtn, hc, hq, setState]

theorem selectOption_counts (app : QuizApp) (index now : Nat) :
    ((selectOption app index now).correctCount = app.correctCount ∨
      (selectOption app index now).correctCount = app.correctCount.incr) ∧
    ((selectOption app index now).wrongCount = app.wrongCount ∨
      (selectOption app index now).wrongCount = app.wrongCount.incr) := by
  by_cases hans : app.isAnswered = true
  · simp [selectOption, hans]
  · cases hbtn : app.dom.optionBtns[index]? with
    | none => simp [selectOption, hans, hbtn]
    | some btn =>
      by_cases hc : btn.option = app.correctAnswer <;>
        cases hq : app.currentQuestion <;>
        simp [selectOption, hans, hbtn, hc, hq, setState]

/-- After an accepted selection the answered flag is set and every button is
disabled. -/
theorem selectOption_accepted (app : QuizApp) (index now : Nat) (btn : Btn)
    (hans : app.isAnswered = false) (hbtn : app.dom.optionBtns[index]? = some btn) :
    (selectOption app index now).isAnswered = true ∧
    (∀ b ∈ (selectOption app index now).dom.optionBtns, b.disabled = true) ∧
    (selectOption app index now).dom.view = some .feedback ∧
    (∀ question, app.currentQuestion = some question →
      (selectOption app index now).pendingReloads = app.pendingReloads + 1 ∧
      (selectOption app index now).requests =
        .submitResult app.gasUrl question.id (decide (btn.option = app.correctAnswer))
          ((now : Int) - (app.startTime : Int)) :: app.requests) ∧
    (app.currentQuestion = none →
      (selectOption app index now).pendingReloads = app.pendingReloads ∧
      (selectOption app index now).requests = app.requests) := by
  by_cases hc : btn.option = app.correctAnswer <;>
    cases hq : app.currentQuestion <;>
    simp [selectOption, hans, hbtn, hc, hq, setState, -List.map_set] <;>
    exact fun a _ => rfl

/-- An accepted selection increments the counter that matches the grading
and keeps the other. -/
theorem selectOption_graded (app : QuizApp) (index now : Nat) (btn : Btn)
    (hans : app.isAnswered = false) (hbtn : app.dom.optionBtns[index]? = some btn) :
    (btn.option = app.correctAnswer →
      (selectOption app index now).correctCount = app.correctCount.incr ∧
      (selectOption app index now).wrongCount = app.wrongCount) ∧
    (btn.option ≠ app.correctAnswer →
      (selectOption app index now).wrongCount = app.wrongCount.incr ∧
      (selectOption app index now).correctCount = app.correctCount) := by
  refine ⟨?_, ?_⟩ <;> intro hc <;>
    cases hq : app.currentQuestion <;>
    simp [selectOption, hans, hbtn, hc, hq, setState]

theorem saveSettings_blank (app : QuizApp) (h : jsTrim app.dom.gasUrlInput = "") :
    saveSettings app =
      { app with alerts := "請輸入有效的 GAS Web App URL" :: app.alerts } := by
  simp [saveSettings, h]

theorem saveSettings_endpoint (app : QuizApp) (h : jsTrim app.dom.gasUrlInput ≠ "") :
    (saveSettings app).gasUrl = jsTrim app.dom.gasUrlInput ∧
    (saveSettings app).storage.gasUrl = some (jsTrim app.dom.gasUrlInput) ∧
    (saveSettings app).requests = .getQuestion (jsTrim app.dom.gasUrlInput) :: app.requests ∧
    (saveSettings app).pendingFetches = app.pendingFetches + 1 ∧
    (saveSettings app).pendingReloads = app.pendingReloads ∧
    (saveSettings app).currentQuestion = app.currentQuestion ∧
    (saveSettings app).correctCount = app.correctCount ∧
    (saveSettings app).wrongCount = app.wrongCount ∧
    (saveSettings app).isAnswered = false := by
  simp [saveSettings, h, loadQuestionBegin, setState, hideModal]

/-! ## Grading a selection -/

theorem Count.incr_of_toNumber (c : Count) (n : Int) (h : c.toNumber = some n) :
    c.incr = .num (n + 1) := by
  unfold Count.toNumber at h
  unfold Count.incr
  split at h
  · next m hm =>
    cases h
    rw [hm]
  · cases h

theorem Count.incr_of_nan (c : Count) (h : c.toNumeric = .nan) : c.incr = .nan := by
  unfold Count.incr
  rw [h]

/-- C4 (counterexample): the store holds `abc` under `correctCount`, the
sample question is loaded and its correct button is clicked.  The selection
is accepted and graded correct, yet the counter does not increase by 1: it
becomes `NaN`, and `NaN` is what is stored. -/
theorem malformed_counter_becomes_nan :
    sampleMalformed.correctCount = .str "abc" ∧
    sampleMalformed.isAnswered = false ∧
    (step sampleMalformed (.click 2 1700)).requests =
      .submitResult "https://gas.example/exec" "q1" true 700 :: sampleMalformed.requests ∧
    (step sampleMalformed (.click 2 1700)).correctCount = .nan ∧
    (step sampleMalformed (.click 2 1700)).correctCount.toNumber = none ∧
    (step sampleMalformed (.click 2 1700)).storage.correctCount = some "NaN" := by
  decide

/-- C4 (amended): an accepted selection (the question is not yet answered
and the button exists) applies `++` to exactly the counter that matches the
grading result and keeps the other one: a counter that holds an integer `n`
of absolute value below 2^53, as a number or as a numeric string, becomes
`n + 1`, and a counter that holds a string that is no numeral becomes `NaN`.
Right after the call the two stored counters are the string forms of the
in-memory counters, written by exactly two `setItem` calls, and when a
question is current exactly one result is submitted. -/
theorem selectOption_updates_stats (app : QuizApp) (index now : Nat) (btn : Btn)
    (hans : app.isAnswered = false) (hbtn : app.dom.optionBtns[index]? = some btn) :
    (btn.option = app.correctAnswer →
      (∀ n : Int, app.correctCount.toNumber = some n → n.natAbs < 2 ^ 53 →
        (selectOption app index now).correctCount = .num (n + 1)) ∧
      (app.correctCount.toNumeric = .nan → (selectOption app index now).correctCount = .nan) ∧
      (selectOption app index now).wrongCount = app.wrongCount) ∧
    (btn.option ≠ app.correctAnswer →
      (∀ n : Int, app.wrongCount.toNumber = some n → n.natAbs < 2 ^ 53 →
        (selectOption app index now).wrongCount = .num (n + 1)) ∧
      (app.wrongCount.toNumeric = .nan → (selectOption app index now).wrongCount = .nan) ∧
      (selectOption app index now).correctCount = app.correctCount) ∧
    (selectOption app index now).storage.correctCount =
      some (selectOption app index now).correctCount.toJSString ∧
    (selectOption app index now).storage.wrongCount =
      some (selectOption app index now).wrongCount.toJSString ∧
    (selectOption app index now).writes =
      ("wrongCount", (selectOption app index now).wrongCount.toJSString) ::
      ("correctCount", (selectOption app index now).correctCount.toJSString) :: app.writes ∧
    (∀ question, app.currentQuestion = some question →
      (selectOption app index now).requests =
        .submitResult app.gasUrl question.id (decide (btn.option = app.correctAnswer))
          ((now : Int) - (app.startTime : Int)) :: app.requests) := by
  have hgr := selectOption_graded app index now btn hans hbtn
  refine ⟨?_, ?_, ?_, ?_, ?_, ?_⟩
  · intro hc
    have h := hgr.1 hc
    refine ⟨?_, ?_, h.2⟩
    · intro n hn _
      rw [h.1, Count.incr_of_toNumber _ _ hn]
    · intro hn
      rw [h.1, Count.incr_of_nan _ hn]
  · intro hc
    have h := hgr.2 hc
    refine ⟨?_, ?_, h.2⟩
    · intro n hn _
      rw [h.1, Count.incr_of_toNumber _ _ hn]
    · intro hn
      rw [h.1, Count.incr_of_nan _ hn]
  · simp only [selectOption, hans, hbtn, setState]
    cases app.currentQuestion <;> by_cases hc : btn.option = app.correctAnswer <;> simp [hc]
  · simp only [selectOption, hans, hbtn, setState]
    cases app.currentQuestion <;> by_cases hc : btn.option = app.correctAnswer <;> simp [hc]
  · simp only [selectOption, hans, hbtn, setState]
    cases app.currentQuestion <;> by_cases hc : btn.option = app.correctAnswer <;> simp [hc]
  · intro question hq
    simp only [selectOption, hans, hbtn, setState, hq]
    by_cases hc : btn.option = app.correctAnswer <;> simp [hc]

theorem selectOption_updates_stats_witness :
    (selectOption sampleLoaded 2 1700).correctCount = .num (0 + 1) ∧
    (selectOption sampleLoaded 2 1700).wrongCount = sampleLoaded.wrongCount ∧
    (selectOption sampleLoaded 2 1700).storage.correctCount = some "1" ∧
    (selectOption sampleLoaded 0 1700).wrongCount = .num (0 + 1) ∧
    (selectOption sampleMalformed 2 1700).correctCount = .nan :=
  ⟨((selectOption_updates_stats sampleLoaded 2 1700
      { textContent := "蘋果", option := .str "蘋果", disabled := false,
        classes := ["option-btn"] } (by decide) (by decide)).1 (by decide)).1 0 (by decide)
      (by decide),
   ((selectOption_updates_stats sampleLoaded 2 1700
      { textContent := "蘋果", option := .str "蘋果", disabled := false,
        classes := ["option-btn"] } (by decide) (by decide)).1 (by decide)).2.2,
   by decide,
   ((selectOption_updates_stats sampleLoaded 0 1700
      { textContent := "香蕉", option := .str "香蕉", disabled := false,
        classes := ["option-btn"] } (by decide) (by decide)).2.1 (by decide)).1 0 (by decide)
      (by decide),
   ((selectOption_updates_stats sampleMalformed 2 1700
      { textContent := "蘋果", option := .str "蘋果", disabled := false,
        classes := ["option-btn"] } (by decide) (by decide)).1 (by decide)).2.1 (by decide)⟩

/-- C1: let a question whose payload has no non-empty `error` and whose
options start with `first` be loaded while the answered flag is clear, with
any shuffle, and let `index` be a button that shows the shuffled option
`shown`.  Then the button displays `shown`, the saved correct answer is
`first`, and `selectOption index` submits the question's id, the grading
`shown = first` and the time elapsed since the load, and counts the answer
as correct exactly when `shown = first`. -/
theorem selectOption_grades_against_first_option (app : QuizApp) (data : Payload)
    (options : List String) (first shown : String) (draw : Nat → Nat)
    (loadedAt now index : Nat)
    (hans : app.isAnswered = false)
    (herr : ∀ e, data.error = some e → e = "")
    (hopt : data.options = .array options)
    (hfirst : options[0]? = some first)
    (hshown : (shuffleArray draw options)[index]? = some shown)
    (hbtn : index < app.dom.optionBtns.length) :
    ((loadQuestionResume app (.json data) loadedAt draw).dom.optionBtns[index]?).map
      Btn.textContent = some shown ∧
    (loadQuestionResume app (.json data) loadedAt draw).currentQuestion = some data ∧
    (loadQuestionResume app (.json data) loadedAt draw).correctAnswer = .str first ∧
    (selectOption (loadQuestionResume app (.json data) loadedAt draw) index now).requests =
      .submitResult app.gasUrl data.id (decide (shown = first))
        ((now : Int) - (loadedAt : Int)) :: app.requests ∧
    (shown = first →
      (selectOption (loadQuestionResume app (.json data) loadedAt draw) index now).correctCount
        = app.correctCount.incr ∧
      (selectOption (loadQuestionResume app (.json data) loadedAt draw) index now).wrongCount
        = app.wrongCount) ∧
    (shown ≠ first →
      (selectOption (loadQuestionResume app (.json data) loadedAt draw) index now).wrongCount
        = app.wrongCount.incr ∧
      (selectOption (loadQuestionResume app (.json data) loadedAt draw) index now).correctCount
        = app.correctCount) := by
  have hfilter : data.error.filter jsTruthy = none := by
    cases he : data.error with
    | none => rfl
    | some e => simp [Option.filter, herr e he, jsTruthy]
  have hhead : options.head? = some first := by
    cases options with
    | nil => simp at hfirst
    | cons a t => simpa using hfirst
  have hload : loadQuestionResume app (.json data) loadedAt draw =
      { app with
        currentQuestion := some data
        correctAnswer := .str first
        startTime := loadedAt
        dom := { app.dom with
          currentWord := data.word
          view := some .quiz
          optionBtns := renderOptions (shuffleArray draw options) 0 app.dom.optionBtns } } := by
    simp [loadQuestionResume, loadQuestionTry, hfilter, displayQuestion, showOptions, hopt, hhead,
      setState]
  have hrender := renderOptions_getElem_at (shuffleArray draw options) app.dom.optionBtns 0 index hbtn
  simp only [Nat.zero_add, textValue, datasetValue, hshown] at hrender
  have hloadedAns : (loadQuestionResume app (.json data) loadedAt draw).isAnswered = false := by
    rw [hload]; exact hans
  have hloadedBtn : (loadQuestionResume app (.json data) loadedAt draw).dom.optionBtns[index]? =
      some { textContent := shown, option := .str shown, disabled := false,
             classes := ["option-btn"] } := by
    rw [hload]; exact hrender
  have hacc := selectOption_accepted _ index now _ hloadedAns hloadedBtn
  have hgr := selectOption_graded _ index now _ hloadedAns hloadedBtn
  have hca : (loadQuestionResume app (.json data) loadedAt draw).correctAnswer = .str first := by
    rw [hload]
  have hbase : (loadQuestionResume app (.json data) loadedAt draw).correctCount = app.correctCount ∧
      (loadQuestionResume app (.json data) loadedAt draw).wrongCount = app.wrongCount ∧
      (loadQuestionResume app (.json data) loadedAt draw).requests = app.requests ∧
      (loadQuestionResume app (.json data) loadedAt draw).gasUrl = app.gasUrl ∧
      (loadQuestionResume app (.json data) loadedAt draw).startTime = loadedAt := by
    rw [hload]; exact ⟨rfl, rfl, rfl, rfl, rfl⟩
  refine ⟨?_, ?_, hca, ?_, ?_, ?_⟩
  · rw [hload]; simp [hrender]
  · rw [hload]
  · have h := (hacc.2.2.2.1 data (by rw [hload])).2
    simpa [hca, hbase.2.2.1, hbase.2.2.2.1, hbase.2.2.2.2] using h
  · intro heq
    have h := hgr.1 (by simp [hca, heq])
    exact ⟨by rw [h.1, hbase.1], by rw [h.2, hbase.2.1]⟩
  · intro hne
    have h := hgr.2 (by simp [hca, hne])
    exact ⟨by rw [h.1, hbase.2.1], by rw [h.2, hbase.1]⟩

theorem selectOption_grades_against_first_option_witness :
    (selectOption (loadQuestionResume (QuizApp.new sampleStore samplePage)
      (.json sampleQuestion) 1000 (fun _ => 0)) 2 1700).requests =
      .submitResult (QuizApp.new sampleStore samplePage).gasUrl sampleQuestion.id
        (decide ("蘋果" = "蘋果")) ((1700 : Int) - (1000 : Int)) ::
        (QuizApp.new sampleStore samplePage).requests ∧
    (selectOption (loadQuestionResume (QuizApp.new sampleStore samplePage)
      (.json sampleQuestion) 1000 (fun _ => 0)) 0 1700).requests =
      .submitResult (QuizApp.new sampleStore samplePage).gasUrl sampleQuestion.id
        (decide ("香蕉" = "蘋果")) ((1700 : Int) - (1000 : Int)) ::
        (QuizApp.new sampleStore samplePage).requests ∧
    (selectOption (loadQuestionResume (QuizApp.new sampleStore samplePage)
      (.json sampleQuestion) 1000 (fun _ => 0)) 2 1700).requests =
      [.submitResult "https://gas.example/exec" "q1" true 700] :=
  ⟨(selectOption_grades_against_first_option (QuizApp.new sampleStore samplePage)
      sampleQuestion ["蘋果", "香蕉", "橘子"] "蘋果" "蘋果" (fun _ => 0) 1000 1700 2
      rfl (fun _ h => nomatch h) rfl rfl (by decide) (by decide)).2.2.2.1,
   (selectOption_grades_against_first_option (QuizApp.new sampleStore samplePage)
      sampleQuestion ["蘋果", "香蕉", "橘子"] "蘋果" "香蕉" (fun _ => 0) 1000 1700 0
      rfl (fun _ h => nomatch h) rfl rfl (by decide) (by decide)).2.2.2.1,
   by decide⟩

/-! ## Failed loads -/

/-- C5 (counterexample): while the sample question is current, a fetch
settles with a JSON object that has no `options`.  Displaying it throws, the
load fails, and `currentQuestion` is now that object, no longer the sample
question.  When the object has an `options` that is not iterable, here an
empty object, the load fails too and the saved correct answer has been
overwritten as well. -/
theorem failed_display_replaces_current_question :
    sampleLoaded.currentQuestion = some sampleQuestion ∧
    sampleLoaded.correctAnswer = .str "蘋果" ∧
    (loadQuestionTry sampleLoaded
      (.json { id := "q2", word := "pear", options := .missing, error := none }) 2000
      (fun _ => 0)).2 = some "Cannot read properties of undefined (reading '0')" ∧
    (loadQuestionResume sampleLoaded
      (.json { id := "q2", word := "pear", options := .missing, error := none }) 2000
      (fun _ => 0)).currentQuestion =
        some { id := "q2", word := "pear", options := .missing, error := none } ∧
    (loadQuestionResume sampleLoaded
      (.json { id := "q2", word := "pear", options := .missing, error := none }) 2000
      (fun _ => 0)).currentQuestion ≠ sampleLoaded.currentQuestion ∧
    (loadQuestionTry sampleLoaded
      (.json { id := "q2", word := "pear", options := .other .undefined, error := none }) 2000
      (fun _ => 0)).2 = some "data.options is not iterable" ∧
    (loadQuestionResume sampleLoaded
      (.json { id := "q2", word := "pear", options := .other .undefined, error := none }) 2000
      (fun _ => 0)).correctAnswer = .undefined := by
  decide

/-- C5 (amended): when the `try` block of `loadQuestion` throws with
`message`, the alert shown ends with `message`, the settings modal is
opened, and the counters and the stored data are unchanged; `message` is the
rejection message or the `error` field when there is one.  When the fetch
rejects, the body is `null` or it carries a non-empty `error`, the current
question and the saved correct answer are unchanged.  Otherwise the payload
is already the current question, and the saved correct answer is unchanged
when its `options` is missing or `null` and is already `options[0]` when its
`options` is not iterable. -/
theorem loadQuestion_failure_is_surfaced (app : QuizApp) (outcome : FetchOutcome)
    (now : Nat) (draw : Nat → Nat) (message : String)
    (hfail : (loadQuestionTry app outcome now draw).2 = some message) :
    (loadQuestionResume app outcome now draw).alerts =
      ("無法從 GAS 載入題目，請檢查 URL 設定。\n錯誤: " ++ message) :: app.alerts ∧
    (loadQuestionResume app outcome now draw).dom.modalActive = true ∧
    (loadQuestionResume app outcome now draw).correctCount = app.correctCount ∧
    (loadQuestionResume app outcome now draw).wrongCount = app.wrongCount ∧
    (loadQuestionResume app outcome now draw).storage = app.storage ∧
    (loadQuestionResume app outcome now draw).writes = app.writes ∧
    (∀ m, outcome = .rejected m → message = m) ∧
    (∀ data e, outcome = .json data → data.error = some e → e ≠ "" → message = e) ∧
    (outcome.refused = true →
      (loadQuestionResume app outcome now draw).currentQuestion = app.currentQuestion ∧
      (loadQuestionResume app outcome now draw).correctAnswer = app.correctAnswer) ∧
    (∀ data, outcome = .json data → outcome.refused = false →
      (loadQuestionResume app outcome now draw).currentQuestion = some data ∧
      ((data.options = .missing ∨ data.options = .null) →
        (loadQuestionResume app outcome now draw).correctAnswer = app.correctAnswer) ∧
      (∀ first, data.options = .other first →
        (loadQuestionResume app outcome now draw).correctAnswer = first)) := by
  cases outcome with
  | rejected m =>
    simp only [loadQuestionTry, Option.some.injEq] at hfail
    subst hfail
    simp [loadQuestionResume, loadQuestionTry, showModal, loadFailureAlert,
      FetchOutcome.refused]
  | jsonNull =>
    simp only [loadQuestionTry, Option.some.injEq] at hfail
    subst hfail
    simp [loadQuestionResume, loadQuestionTry, showModal, loadFailureAlert,
      FetchOutcome.refused]
  | json data =>
    cases hf : data.error.filter jsTruthy with
    | some e =>
      simp only [loadQuestionTry, hf, Option.some.injEq] at hfail
      subst hfail
      have he : ∀ e', data.error = some e' → e' ≠ "" → e = e' := by
        intro e' h1 h2
        simp [h1, Option.filter, jsTruthy, h2] at hf
        exact hf.symm
      have hres : loadQuestionResume app (.json data) now draw =
          showModal { app with alerts := loadFailureAlert e :: app.alerts } := by
        simp [loadQuestionResume, loadQuestionTry, hf]
      rw [hres]
      refine ⟨rfl, rfl, rfl, rfl, rfl, rfl, ?_, ?_, ?_, ?_⟩
      · intro m h; cases h
      · intro d e' hd h1 h2
        cases hd
        exact he e' h1 h2
      · intro _; exact ⟨rfl, rfl⟩
      · intro d _ h; simp [FetchOutcome.refused, hf] at h
    | none =>
      have he : ∀ e', data.error = some e' → e' ≠ "" → False := by
        intro e' h1 h2
        simp [h1, Option.filter, jsTruthy, h2] at hf
      have hnot : (FetchOutcome.json data).refused = false := by
        simp [FetchOutcome.refused, hf]
      cases ho : data.options with
      | array items =>
        simp [loadQuestionTry, hf, displayQuestion, ho] at hfail
      | text t =>
        simp [loadQuestionTry, hf, displayQuestion, ho] at hfail
      | missing =>
        simp only [loadQuestionTry, hf, displayQuestion, ho, Option.some.injEq] at hfail
        subst hfail
        have hres : loadQuestionResume app (.json data) now draw =
            showModal { app with
              currentQuestion := some data
              dom := { app.dom with currentWord := data.word }
              alerts := loadFailureAlert (typeErrorMessage "undefined" "0") :: app.alerts } := by
          simp [loadQuestionResume, loadQuestionTry, hf, displayQuestion, ho]
        rw [hres]
        refine ⟨rfl, rfl, rfl, rfl, rfl, rfl, ?_, ?_, ?_, ?_⟩
        · intro m h; cases h
        · intro d e' hd h1 h2
          cases hd
          exact absurd h2 (fun h2 => he e' h1 h2)
        · intro h; rw [hnot] at h; cases h
        · intro d hd _
          cases hd
          exact ⟨rfl, fun _ => rfl, fun first h => by rw [ho] at h; cases h⟩
      | null =>
        simp only [loadQuestionTry, hf, displayQuestion, ho, Option.some.injEq] at hfail
        subst hfail
        have hres : loadQuestionResume app (.json data) now draw =
            showModal { app with
              currentQuestion := some data
              dom := { app.dom with currentWord := data.word }
              alerts := loadFailureAlert (typeErrorMessage "null" "0") :: app.alerts } := by
          simp [loadQuestionResume, loadQuestionTry, hf, displayQuestion, ho]
        rw [hres]
        refine ⟨rfl, rfl, rfl, rfl, rfl, rfl, ?_, ?_, ?_, ?_⟩
        · intro m h; cases h
        · intro d e' hd h1 h2
          cases hd
          exact absurd h2 (fun h2 => he e' h1 h2)
        · intro h; rw [hnot] at h; cases h
        · intro d hd _
          cases hd
          exact ⟨rfl, fun _ => rfl, fun first h => by rw [ho] at h; cases h⟩
      | other value =>
        simp only [loadQuestionTry, hf, displayQuestion, ho, Option.some.injEq] at hfail
        subst hfail
        have hres : loadQuestionResume app (.json data) now draw =
            showModal { app with
              currentQuestion := some data
              correctAnswer := value
              dom := { app.dom with currentWord := data.word }
              alerts := loadFailureAlert notIterableMessage :: app.alerts } := by
          simp [loadQuestionResume, loadQuestionTry, hf, displayQuestion, ho]
        rw [hres]
        refine ⟨rfl, rfl, rfl, rfl, rfl, rfl, ?_, ?_, ?_, ?_⟩
        · intro m h; cases h
        · intro d e' hd h1 h2
          cases hd
          exact absurd h2 (fun h2 => he e' h1 h2)
        · intro h; rw [hnot] at h; cases h
        · intro d hd _
          cases hd
          refine ⟨rfl, ?_, ?_⟩
          · intro h
            rw [ho] at h
            rcases h with h | h <;> cases h
          · intro first h
            rw [ho] at h
            cases h
            rfl

theorem loadQuestion_failure_is_surfaced_witness :
    (loadQuestionResume sampleLoaded
      (.json { id := "", word := "", options := .missing, error := some "bad token" }) 2000
      (fun _ => 0)).alerts =
      ["無法從 GAS 載入題目，請檢查 URL 設定。\n錯誤: " ++ "bad token"] ∧
    (loadQuestionResume sampleLoaded
      (.json { id := "", word := "", options := .missing, error := some "bad token" }) 2000
      (fun _ => 0)).currentQuestion = some sampleQuestion :=
  ⟨(loadQuestion_failure_is_surfaced sampleLoaded
      (.json { id := "", word := "", options := .missing, error := some "bad token" }) 2000
      (fun _ => 0) "bad token" (by decide)).1,
   ((loadQuestion_failure_is_surfaced sampleLoaded
      (.json { id := "", word := "", options := .missing, error := some "bad token" }) 2000
      (fun _ => 0) "bad token" (by decide)).2.2.2.2.2.2.2.2.1 (by decide)).1⟩

/-! ## Counters along a run -/

theorem Count.incr_ge (c : Count) (n : Int) (h : c.toNumber = some n) :
    ∃ m, c.incr.toNumber = some m ∧ n ≤ m :=
  ⟨n + 1, by rw [Count.incr_of_toNumber c n h]; rfl, by omega⟩

theorem step_counts (app : QuizApp) (e : Event) (h : e.confirmsReset = false) :
    ((step app e).correctCount = app.correctCount ∨
      (step app e).correctCount = app.correctCount.incr) ∧
    ((step app e).wrongCount = app.wrongCount ∨
      (step app e).wrongCount = app.wrongCount.incr) := by
  cases e with
  | startupDelay =>
    simp only [step, startup]
    split
    · split
      · exact ⟨Or.inl rfl, Or.inl rfl⟩
      · exact ⟨Or.inl rfl, Or.inl rfl⟩
    · exact ⟨Or.inl rfl, Or.inl rfl⟩
  | fetchDone outcome now draw =>
    simp only [step]
    split
    · exact ⟨Or.inl rfl, Or.inl rfl⟩
    · have hf := loadQuestionResume_frame
        { app with pendingFetches := app.pendingFetches - 1 } outcome now draw
      exact ⟨Or.inl hf.2.2.1, Or.inl hf.2.2.2.1⟩
  | click index now =>
    simp only [step]
    split
    · split
      · exact ⟨Or.inl rfl, Or.inl rfl⟩
      · exact selectOption_counts app index now
    · exact ⟨Or.inl rfl, Or.inl rfl⟩
  | saveSettings input =>
    simp only [step]
    by_cases hb : jsTrim input = ""
    · rw [saveSettings_blank _ hb]
      exact ⟨Or.inl rfl, Or.inl rfl⟩
    · have hs := saveSettings_endpoint { app with dom := { app.dom with gasUrlInput := input } } hb
      exact ⟨Or.inl hs.2.2.2.2.2.2.1, Or.inl hs.2.2.2.2.2.2.2.1⟩
  | resetStats confirmed =>
    simp only [Event.confirmsReset] at h
    subst h
    exact ⟨Or.inl rfl, Or.inl rfl⟩
  | feedbackDelay =>
    simp only [step]
    split
    · exact ⟨Or.inl rfl, Or.inl rfl⟩
    · exact ⟨Or.inl rfl, Or.inl rfl⟩
  | openSettings => exact ⟨Or.inl rfl, Or.inl rfl⟩
  | closeSettings => exact ⟨Or.inl rfl, Or.inl rfl⟩

theorem run_counts (events : List Event) :
    ∀ (app : QuizApp), (∀ e ∈ events, e.confirmsReset = false) →
      (∀ n, app.correctCount.toNumber = some n →
        ∃ m, (run app events).correctCount.toNumber = some m ∧ n ≤ m) ∧
      (∀ n, app.wrongCount.toNumber = some n →
        ∃ m, (run app events).wrongCount.toNumber = some m ∧ n ≤ m) := by
  induction events with
  | nil =>
    intro app _
    exact ⟨fun n h => ⟨n, h, le_refl n⟩, fun n h => ⟨n, h, le_refl n⟩⟩
  | cons e rest ih =>
    intro app hno
    have hstep := step_counts app e (hno e (List.mem_cons_self _ _))
    have hrest := ih (step app e) (fun e' he' => hno e' (List.mem_cons_of_mem _ he'))
    refine ⟨?_, ?_⟩
    · intro n hn
      have h1 : ∃ k, (step app e).correctCount.toNumber = some k ∧ n ≤ k := by
        rcases hstep.1 with h | h
        · exact ⟨n, by rw [h]; exact hn, le_refl n⟩
        · rw [h]; exact Count.incr_ge _ n hn
      obtain ⟨k, hk, hnk⟩ := h1
      obtain ⟨m, hm, hkm⟩ := hrest.1 k hk
      exact ⟨m, hm, le_trans hnk hkm⟩
    · intro n hn
      have h1 : ∃ k, (step app e).wrongCount.toNumber = some k ∧ n ≤ k := by
        rcases hstep.2 with h | h
        · exact ⟨n, by rw [h]; exact hn, le_refl n⟩
        · rw [h]; exact Count.incr_ge _ n hn
      obtain ⟨k, hk, hnk⟩ := h1
      obtain ⟨m, hm, hkm⟩ := hrest.2 k hk
      exact ⟨m, hm, le_trans hnk hkm⟩

/-- C9: along every sequence of events without a confirmed reset, a counter
that holds a number keeps holding a number and never decreases; a confirmed
`resetStats` sets both in-memory counters to 0 and both stored counters to
`0`, and a declined one leaves the whole state unchanged. -/
theorem counters_monotone_between_resets (app : QuizApp) (events : List Event)
    (hno : ∀ e ∈ events, e.confirmsReset = false) :
    (∀ n, app.correctCount.toNumber = some n →
      ∃ m, (run app events).correctCount.toNumber = some m ∧ n ≤ m) ∧
    (∀ n, app.wrongCount.toNumber = some n →
      ∃ m, (run app events).wrongCount.toNumber = some m ∧ n ≤ m) ∧
    (resetStats app true).correctCount = .num 0 ∧
    (resetStats app true).wrongCount = .num 0 ∧
    (resetStats app true).storage.correctCount = some "0" ∧
    (resetStats app true).storage.wrongCount = some "0" ∧
    resetStats app false = app :=
  ⟨(run_counts events app hno).1, (run_counts events app hno).2, rfl, rfl, rfl, rfl, rfl⟩

/-! ## The endpoint of every request -/

theorem endpointInv_new (storage : Storage) (dom : Dom) : EndpointInv (QuizApp.new storage dom) :=
  ⟨fun r hr => by simp [QuizApp.new] at hr, fun _ => ⟨rfl, rfl, rfl⟩⟩

theorem endpointInv_loadQuestionBegin (app : QuizApp) (h : EndpointInv app)
    (hurl : app.gasUrl ≠ "") : EndpointInv (loadQuestionBegin app) := by
  refine ⟨?_, fun hg => absurd hg hurl⟩
  intro r hr
  rw [(loadQuestionBegin_frame app).2.2.2.2.2.2.2.2.2.2.2.1] at hr
  rcases List.mem_cons.1 hr with rfl | hr
  · exact hurl
  · exact h.1 r hr

theorem endpointInv_step (app : QuizApp) (e : Event) (h : EndpointInv app) :
    EndpointInv (step app e) := by
  cases e with
  | startupDelay =>
    simp only [step, startup]
    split
    · split
      · next hurl => exact endpointInv_loadQuestionBegin _ ⟨h.1, h.2⟩ hurl
      · exact ⟨h.1, h.2⟩
    · exact h
  | fetchDone outcome now draw =>
    simp only [step]
    split
    · exact h
    · next hp =>
      have hf := loadQuestionResume_frame
        { app with pendingFetches := app.pendingFetches - 1 } outcome now draw
      have hurl : app.gasUrl ≠ "" := fun hg => hp (h.2 hg).2.1
      refine ⟨?_, fun hg => absurd (hf.1 ▸ hg) hurl⟩
      rw [hf.2.2.2.2.2.2.1]
      exact h.1
  | click index now =>
    simp only [step]
    split
    · next btn hbtn =>
      split
      · exact h
      · by_cases hans : app.isAnswered = true
        · rw [selectOption_answered _ _ _ hans]
          exact h
        · have hans' : app.isAnswered = false := by simpa using hans
          have hfr := selectOption_frame app index now
          have hacc := selectOption_accepted app index now btn hans' hbtn
          cases hq : app.currentQuestion with
          | none =>
            have hn := hacc.2.2.2.2 hq
            refine ⟨by rw [hn.2]; exact h.1, ?_⟩
            intro hg
            rw [hfr.1] at hg
            rw [hfr.2.1, hfr.2.2.2.1, hn.1]
            exact h.2 hg
          | some question =>
            have hs := hacc.2.2.2.1 question hq
            have hurl : app.gasUrl ≠ "" := fun hg => by
              have := (h.2 hg).1
              rw [hq] at this
              cases this
            refine ⟨?_, fun hg => absurd (hfr.1 ▸ hg) hurl⟩
            intro r hr
            rw [hs.2] at hr
            rcases List.mem_cons.1 hr with rfl | hr
            · exact hurl
            · exact h.1 r hr
    · exact h
  | saveSettings input =>
    simp only [step]
    by_cases hb : jsTrim input = ""
    · rw [saveSettings_blank _ hb]
      exact ⟨h.1, h.2⟩
    · have hs := saveSettings_endpoint { app with dom := { app.dom with gasUrlInput := input } } hb
      refine ⟨?_, fun hg => absurd (hs.1 ▸ hg) hb⟩
      intro r hr
      rw [hs.2.2.1] at hr
      rcases List.mem_cons.1 hr with rfl | hr
      · exact hb
      · exact h.1 r hr
  | resetStats confirmed =>
    cases confirmed
    · exact h
    · exact ⟨h.1, h.2⟩
  | feedbackDelay =>
    simp only [step]
    split
    · exact h
    · next hp =>
      have hurl : app.gasUrl ≠ "" := fun hg => hp (h.2 hg).2.2
      exact endpointInv_loadQuestionBegin _ ⟨h.1, fun hg => absurd hg hurl⟩ hurl
  | openSettings => exact ⟨h.1, h.2⟩
  | closeSettings => exact ⟨h.1, h.2⟩

theorem endpointInv_run (events : List Event) :
    ∀ (app : QuizApp), EndpointInv app → EndpointInv (run app events) := by
  induction events with
  | nil => exact fun _ h => h
  | cons e rest ih => exact fun app h => ih (step app e) (endpointInv_step app e h)

theorem jsTrim_blank (input : String) (h : ∀ c ∈ input.data, jsIsWhiteSpace c = true) :
    jsTrim input = "" := by
  have h1 : input.data.dropWhile jsIsWhiteSpace = [] := List.dropWhile_eq_nil_iff.2 h
  simp only [jsTrim, jsTrimChars, h1]
  rfl

/-- C7: in every state reached from startup by any sequence of events, every
`fetch` made so far, for a question or for a result, went to a non-empty
endpoint; with no stored endpoint the startup timeout opens the settings
modal and makes no request; and saving an input that is empty or all white
space changes neither `gasUrl` nor the store and starts no fetch. -/
theorem fetch_needs_endpoint (storage : Storage) (dom : Dom) (events : List Event) :
    (∀ r ∈ (run (QuizApp.new storage dom) events).requests, r.endpoint ≠ "") ∧
    ((storage.gasUrl = none ∨ storage.gasUrl = some "") →
      (step (QuizApp.new storage dom) .startupDelay).dom.modalActive = true ∧
      (step (QuizApp.new storage dom) .startupDelay).requests = [] ∧
      (step (QuizApp.new storage dom) .startupDelay).pendingFetches = 0 ∧
      (step (QuizApp.new storage dom) .startupDelay).currentQuestion = none) ∧
    (∀ (app : QuizApp) (input : String), (∀ c ∈ input.data, jsIsWhiteSpace c = true) →
      (step app (.saveSettings input)).gasUrl = app.gasUrl ∧
      (step app (.saveSettings input)).storage = app.storage ∧
      (step app (.saveSettings input)).writes = app.writes ∧
      (step app (.saveSettings input)).requests = app.requests ∧
      (step app (.saveSettings input)).pendingFetches = app.pendingFetches) := by
  refine ⟨(endpointInv_run events _ (endpointInv_new storage dom)).1, ?_, ?_⟩
  · rintro (h | h) <;> simp [step, startup, QuizApp.new, h, showModal]
  · intro app input hblank
    have hb := jsTrim_blank input hblank
    simp only [step]
    rw [saveSettings_blank _ hb]
    exact ⟨rfl, rfl, rfl, rfl, rfl⟩

/-! ## Fetches and Feedback delays -/

theorem saveSettings_startupPending (app : QuizApp) :
    (saveSettings app).startupPending = app.startupPending := by
  by_cases hb : jsTrim app.dom.gasUrlInput = ""
  · rw [saveSettings_blank _ hb]
  · simp [saveSettings, hb, loadQuestionBegin, setState, hideModal]

theorem reloadInv_new (storage : Storage) (dom : Dom) : ReloadInv (QuizApp.new storage dom) := by
  refine ⟨by simp [QuizApp.new], ?_, fun _ => ⟨rfl, rfl, rfl⟩⟩
  intro h
  simp [QuizApp.new] at h

theorem reloadInv_step (app : QuizApp) (e : Event) (h : ReloadInv app)
    (he : e.savesEndpoint = true → app.startupPending = false ∧ app.pendingReloads = 0) :
    ReloadInv (step app e) := by
  obtain ⟨h1, h2, h3⟩ := h
  cases e with
  | startupDelay =>
    simp only [step, startup]
    split
    · next hp =>
      have hr : app.pendingReloads = 0 := (h3 hp).2.2
      split
      · refine ⟨?_, ?_, ?_⟩
        · simp [loadQuestionBegin, setState, hr]
        · intro hc; simp [loadQuestionBegin, setState, hr] at hc
        · intro hc; simp [loadQuestionBegin, setState] at hc
      · refine ⟨?_, ?_, ?_⟩
        · simp [showModal, hr]
        · intro hc; simp [showModal, hr] at hc
        · intro hc; simp [showModal] at hc
    · exact ⟨h1, h2, h3⟩
  | fetchDone outcome now draw =>
    simp only [step]
    split
    · exact ⟨h1, h2, h3⟩
    · next hp =>
      have hf := loadQuestionResume_frame
        { app with pendingFetches := app.pendingFetches - 1 } outcome now draw
      refine ⟨?_, ?_, ?_⟩
      · rw [hf.2.2.2.2.2.2.2.2.1]; exact h1
      · intro hc
        rw [hf.2.2.2.2.2.2.2.2.1] at hc
        rw [hf.2.1, hf.2.2.2.2.2.2.2.2.2]
        exact h2 hc
      · intro hc
        rw [hf.2.2.2.2.2.2.2.2.2] at hc
        exact absurd (h3 hc).2.1 hp
  | click index now =>
    simp only [step]
    split
    · next btn hbtn =>
      split
      · exact ⟨h1, h2, h3⟩
      · by_cases hans : app.isAnswered = true
        · rw [selectOption_answered _ _ _ hans]
          exact ⟨h1, h2, h3⟩
        · have hans' : app.isAnswered = false := by simpa using hans
          have hfr := selectOption_frame app index now
          have hacc := selectOption_accepted app index now btn hans' hbtn
          have hr : app.pendingReloads = 0 := by
            by_contra hne
            have h1' : app.pendingReloads = 1 := by omega
            exact hans (h2 h1').1
          cases hq : app.currentQuestion with
          | none =>
            have hn := hacc.2.2.2.2 hq
            refine ⟨?_, ?_, ?_⟩
            · rw [hn.1]; exact h1
            · intro hc; rw [hn.1, hr] at hc; omega
            · intro hc
              rw [hfr.2.2.2.2.1] at hc
              rw [hfr.2.1, hfr.2.2.2.1, hn.1]
              exact h3 hc
          | some question =>
            have hs := hacc.2.2.2.1 question hq
            have hsp : app.startupPending = false := by
              cases hsp : app.startupPending with
              | false => rfl
              | true => have := (h3 hsp).1; rw [hq] at this; cases this
            refine ⟨?_, ?_, ?_⟩
            · rw [hs.1, hr]
            · intro _
              exact ⟨hacc.1, by rw [hfr.2.2.2.2.1]; exact hsp⟩
            · intro hc; rw [hfr.2.2.2.2.1, hsp] at hc; cases hc
    · exact ⟨h1, h2, h3⟩
  | saveSettings input =>
    simp only [step]
    by_cases hb : jsTrim input = ""
    · rw [saveSettings_blank _ hb]
      exact ⟨h1, h2, h3⟩
    · have hidle := he (by simp [Event.savesEndpoint, hb])
      have hs := saveSettings_endpoint { app with dom := { app.dom with gasUrlInput := input } } hb
      have hsp := saveSettings_startupPending
        { app with dom := { app.dom with gasUrlInput := input } }
      refine ⟨?_, ?_, ?_⟩
      · rw [hs.2.2.2.2.1]; exact h1
      · intro hc
        rw [hs.2.2.2.2.1] at hc
        have := hidle.2
        change app.pendingReloads = 1 at hc
        omega
      · intro hc
        rw [hsp] at hc
        have := hidle.1
        change app.startupPending = true at hc
        rw [this] at hc
        cases hc
  | resetStats confirmed =>
    cases confirmed
    · exact ⟨h1, h2, h3⟩
    · exact ⟨h1, h2, h3⟩
  | feedbackDelay =>
    simp only [step]
    split
    · exact ⟨h1, h2, h3⟩
    · next hp =>
      have hr : app.pendingReloads = 1 := by omega
      have hsp := (h2 hr).2
      refine ⟨?_, ?_, ?_⟩
      · simp [loadQuestionBegin, setState, hr]
      · intro hc; simp [loadQuestionBegin, setState, hr] at hc
      · intro hc; simp [loadQuestionBegin, setState, hsp] at hc
  | openSettings => exact ⟨h1, h2, h3⟩
  | closeSettings => exact ⟨h1, h2, h3⟩

theorem reloadInv_run (events : List Event) :
    ∀ (app : QuizApp), ReloadInv app → savesWhenIdle app events = true →
      ReloadInv (run app events) := by
  induction events with
  | nil => exact fun _ h _ => h
  | cons e rest ih =>
    intro app h hidle
    simp only [savesWhenIdle, Bool.and_eq_true, Bool.or_eq_true, Bool.not_eq_true',
      beq_iff_eq] at hidle
    refine ih (step app e) (reloadInv_step app e h ?_) hidle.2
    intro hs
    rcases hidle.1 with h0 | h0
    · rw [hs] at h0; cases h0
    · exact h0

/-- A step makes no request, or begins one question fetch, or submits one
result. -/
theorem step_requests (app : QuizApp) (e : Event) :
    (step app e).requests = app.requests ∨
    ((step app e).requests = .getQuestion (step app e).gasUrl :: app.requests ∧
      (step app e).pendingFetches = app.pendingFetches + 1 ∧ e.beginsLoad = true) ∨
    (∃ id isCorrect timeTaken,
      (step app e).requests = .submitResult app.gasUrl id isCorrect timeTaken :: app.requests) := by
  cases e with
  | startupDelay =>
    simp only [step, startup]
    split
    · split
      · exact Or.inr (Or.inl ⟨rfl, rfl, rfl⟩)
      · exact Or.inl rfl
    · exact Or.inl rfl
  | fetchDone outcome now draw =>
    simp only [step]
    split
    · exact Or.inl rfl
    · exact Or.inl (loadQuestionResume_frame _ outcome now draw).2.2.2.2.2.2.1
  | click index now =>
    simp only [step]
    split
    · next btn hbtn =>
      split
      · exact Or.inl rfl
      · by_cases hans : app.isAnswered = true
        · rw [selectOption_answered _ _ _ hans]
          exact Or.inl rfl
        · have hacc := selectOption_accepted app index now btn (by simpa using hans) hbtn
          cases hq : app.currentQuestion with
          | none => exact Or.inl (hacc.2.2.2.2 hq).2
          | some question => exact Or.inr (Or.inr ⟨_, _, _, (hacc.2.2.2.1 question hq).2⟩)
    · exact Or.inl rfl
  | saveSettings input =>
    simp only [step]
    by_cases hb : jsTrim input = ""
    · rw [saveSettings_blank _ hb]
      exact Or.inl rfl
    · have hs := saveSettings_endpoint { app with dom := { app.dom with gasUrlInput := input } } hb
      refine Or.inr (Or.inl ⟨?_, hs.2.2.2.1, by simp [Event.beginsLoad, hb]⟩)
      rw [hs.2.2.1, hs.1]
  | resetStats confirmed =>
    cases confirmed
    · exact Or.inl rfl
    · exact Or.inl rfl
  | feedbackDelay =>
    simp only [step]
    split
    · exact Or.inl rfl
    · exact Or.inr (Or.inl ⟨rfl, rfl, rfl⟩)
  | openSettings => exact Or.inl rfl
  | closeSettings => exact Or.inl rfl

/-- C8 (counterexample): three runs of the sample page.  First, the sample
question is answered, so Feedback is entered and one reload is pending;
saving an endpoint then begins a fetch at once, with the reload still
pending, and the expiry of the delay begins a second one.  Second, with no
endpoint stored, an endpoint is saved before the startup timeout has fired,
the question is fetched and answered, and the startup timeout then begins a
fetch while the Feedback delay is pending.  Third, with no endpoint stored, a
button is clicked before any question is current: Feedback is entered, no
reload is scheduled and no fetch follows. -/
theorem saveSettings_fetches_during_feedback :
    (run sampleLoaded [.click 2 1700]).dom.view = some .feedback ∧
    (run sampleLoaded [.click 2 1700]).pendingReloads = 1 ∧
    (run sampleLoaded [.click 2 1700, .saveSettings "https://gas.example/exec"]).requests =
      .getQuestion "https://gas.example/exec" :: (run sampleLoaded [.click 2 1700]).requests ∧
    (run sampleLoaded
      [.click 2 1700, .saveSettings "https://gas.example/exec"]).pendingReloads = 1 ∧
    (run sampleLoaded
      [.click 2 1700, .saveSettings "https://gas.example/exec", .feedbackDelay]).requests =
      .getQuestion "https://gas.example/exec" :: .getQuestion "https://gas.example/exec" ::
        (run sampleLoaded [.click 2 1700]).requests ∧
    (run (QuizApp.new sampleEmptyStore samplePage)
      [.saveSettings "https://gas.example/exec",
        .fetchDone (.json sampleQuestion) 100 (fun _ => 0), .click 2 300]).pendingReloads = 1 ∧
    (run (QuizApp.new sampleEmptyStore samplePage)
      [.saveSettings "https://gas.example/exec",
        .fetchDone (.json sampleQuestion) 100 (fun _ => 0), .click 2 300,
        .startupDelay]).requests =
      .getQuestion "https://gas.example/exec" ::
        (run (QuizApp.new sampleEmptyStore samplePage)
          [.saveSettings "https://gas.example/exec",
            .fetchDone (.json sampleQuestion) 100 (fun _ => 0), .click 2 300]).requests ∧
    (run (QuizApp.new sampleEmptyStore samplePage)
      [.saveSettings "https://gas.example/exec",
        .fetchDone (.json sampleQuestion) 100 (fun _ => 0), .click 2 300,
        .startupDelay]).pendingReloads = 1 ∧
    (run (QuizApp.new sampleEmptyStore samplePage) [.click 0 100]).dom.view =
      some .feedback ∧
    (run (QuizApp.new sampleEmptyStore samplePage) [.click 0 100]).pendingReloads = 0 ∧
    (run (QuizApp.new sampleEmptyStore samplePage)
      [.click 0 100, .startupDelay, .feedbackDelay]).requests = [] := by
  decide

/-- C8 (amended): in every run from startup in which a non-blank endpoint is
saved only while neither the startup timeout nor a Feedback delay is
pending, at most one Feedback delay is pending; a step that begins a fetch
begins exactly one and leaves no Feedback delay pending; and an accepted
click enters Feedback and begins no fetch: with a current question exactly
one delay is then pending and its expiry begins exactly one fetch, with no
current question no delay is scheduled. -/
theorem fetches_sequential_when_saves_idle (storage : Storage) (dom : Dom)
    (events : List Event) (hidle : savesWhenIdle (QuizApp.new storage dom) events = true) :
    (run (QuizApp.new storage dom) events).pendingReloads ≤ 1 ∧
    (∀ e : Event,
      (e.savesEndpoint = true →
        (run (QuizApp.new storage dom) events).startupPending = false ∧
        (run (QuizApp.new storage dom) events).pendingReloads = 0) →
      (step (run (QuizApp.new storage dom) events) e).requests.filter Request.isGet ≠
        (run (QuizApp.new storage dom) events).requests.filter Request.isGet →
      (step (run (QuizApp.new storage dom) events) e).requests =
        .getQuestion (step (run (QuizApp.new storage dom) events) e).gasUrl ::
          (run (QuizApp.new storage dom) events).requests ∧
      (step (run (QuizApp.new storage dom) events) e).pendingReloads = 0) ∧
    (∀ (index now : Nat) (btn : Btn),
      (run (QuizApp.new storage dom) events).isAnswered = false →
      (run (QuizApp.new storage dom) events).dom.optionBtns[index]? = some btn →
      btn.disabled = false →
      (step (run (QuizApp.new storage dom) events) (.click index now)).dom.view =
        some .feedback ∧
      (step (run (QuizApp.new storage dom) events) (.click index now)).requests.filter
          Request.isGet =
        (run (QuizApp.new storage dom) events).requests.filter Request.isGet ∧
      ((run (QuizApp.new storage dom) events).currentQuestion = none →
        (step (run (QuizApp.new storage dom) events) (.click index now)).pendingReloads = 0) ∧
      (∀ question, (run (QuizApp.new storage dom) events).currentQuestion = some question →
        (step (run (QuizApp.new storage dom) events) (.click index now)).pendingReloads = 1 ∧
        (step (step (run (QuizApp.new storage dom) events) (.click index now))
            .feedbackDelay).requests =
          .getQuestion (run (QuizApp.new storage dom) events).gasUrl ::
            (step (run (QuizApp.new storage dom) events) (.click index now)).requests ∧
        (step (step (run (QuizApp.new storage dom) events) (.click index now))
            .feedbackDelay).pendingReloads = 0)) := by
  have hinv := reloadInv_run events _ (reloadInv_new storage dom) hidle
  generalize run (QuizApp.new storage dom) events = app at hinv ⊢
  refine ⟨hinv.1, ?_, ?_⟩
  · intro e he hne
    have hinv' := reloadInv_step app e hinv he
    rcases step_requests app e with h | ⟨h, hpf, hb⟩ | ⟨id, c, t, h⟩
    · rw [h] at hne; exact absurd rfl hne
    · refine ⟨h, ?_⟩
      cases e with
      | saveSettings input =>
        have hb' : jsTrim input ≠ "" := by simpa [Event.beginsLoad] using hb
        have hs := saveSettings_endpoint
          { app with dom := { app.dom with gasUrlInput := input } } hb'
        have hidle' := he (by simp [Event.savesEndpoint, hb'])
        simp only [step]
        rw [hs.2.2.2.2.1]
        exact hidle'.2
      | startupDelay =>
        by_cases hp : app.startupPending = true
        · have hr := (hinv.2.2 hp).2.2
          simp only [step, startup, hp, if_true]
          split
          · exact hr
          · exact hr
        · have hstep : step app .startupDelay = app := by simp [step, hp]
          rw [hstep] at hpf
          omega
      | feedbackDelay =>
        by_cases hp : app.pendingReloads = 0
        · have hstep : step app .feedbackDelay = app := by simp [step, hp]
          rw [hstep] at hpf
          omega
        · have hr : app.pendingReloads = 1 := by have := hinv.1; omega
          simp [step, hr, loadQuestionBegin, setState]
      | fetchDone _ _ _ => simp [Event.beginsLoad] at hb
      | click _ _ => simp [Event.beginsLoad] at hb
      | resetStats _ => simp [Event.beginsLoad] at hb
      | openSettings => simp [Event.beginsLoad] at hb
      | closeSettings => simp [Event.beginsLoad] at hb
    · rw [h] at hne
      simp [Request.isGet] at hne
  · intro index now btn hans hbtn hen
    have hstep : step app (.click index now) = selectOption app index now := by
      simp [step, hbtn, hen]
    have hacc := selectOption_accepted app index now btn hans hbtn
    have hfr := selectOption_frame app index now
    have hr : app.pendingReloads = 0 := by
      by_contra hne
      have h1' : app.pendingReloads = 1 := by have := hinv.1; omega
      have := (hinv.2.1 h1').1
      rw [hans] at this
      cases this
    rw [hstep]
    refine ⟨hacc.2.2.1, ?_, ?_, ?_⟩
    · cases hq : app.currentQuestion with
      | none => rw [(hacc.2.2.2.2 hq).2]
      | some question =>
        rw [(hacc.2.2.2.1 question hq).2]
        simp [Request.isGet]
    · intro hq
      rw [(hacc.2.2.2.2 hq).1, hr]
    · intro question hq
      have hs := hacc.2.2.2.1 question hq
      have hr' : (selectOption app index now).pendingReloads = 1 := by rw [hs.1, hr]
      refine ⟨hr', ?_, ?_⟩
      · simp [step, hr', loadQuestionBegin, setState, hfr.1]
      · simp [step, hr', loadQuestionBegin, setState]

/-! ## One accepted selection per question -/

theorem not_rendersQuestion_of_not_replacesQuestion (e : Event)
    (h : e.replacesQuestion = false) : e.rendersQuestion = false := by
  cases e with
  | fetchDone outcome now draw =>
    have hr : outcome.refused = true := by simpa [Event.replacesQuestion] using h
    cases outcome with
    | rejected m => rfl
    | jsonNull => rfl
    | json data => simp [Event.rendersQuestion, FetchOutcome.displayed, hr]
  | startupDelay => rfl
  | click _ _ => rfl
  | saveSettings _ => rfl
  | resetStats _ => rfl
  | feedbackDelay => rfl
  | openSettings => rfl
  | closeSettings => rfl

theorem step_keeps_question (app : QuizApp) (e : Event) (h : e.replacesQuestion = false) :
    (step app e).currentQuestion = app.currentQuestion := by
  cases e with
  | startupDelay =>
    simp only [step, startup]
    split
    · split <;> rfl
    · rfl
  | feedbackDelay =>
    simp only [step]
    split <;> rfl
  | fetchDone outcome now draw =>
    simp only [step]
    split
    · rfl
    · exact (loadQuestionResume_refused _ outcome now draw
        (by simpa [Event.replacesQuestion] using h)).1
  | click index now =>
    simp only [step]
    split
    · split
      · rfl
      · exact (selectOption_frame app index now).2.1
    · rfl
  | saveSettings input =>
    simp only [step]
    by_cases hb : jsTrim input = ""
    · rw [saveSettings_blank _ hb]
    · exact (saveSettings_endpoint _ hb).2.2.2.2.2.1
  | resetStats confirmed =>
    cases confirmed <;> rfl
  | openSettings => rfl
  | closeSettings => rfl

theorem run_keeps_question (events : List Event) :
    ∀ (app : QuizApp), (∀ e ∈ events, e.replacesQuestion = false) →
      (run app events).currentQuestion = app.currentQuestion := by
  induction events with
  | nil => exact fun _ _ => rfl
  | cons e rest ih =>
    intro app hno
    have h1 := ih (step app e) (fun e' he' => hno e' (List.mem_cons_of_mem _ he'))
    have h2 := step_keeps_question app e (hno e (List.mem_cons_self _ _))
    exact h1.trans h2

theorem step_keeps_disabled (app : QuizApp) (e : Event)
    (h : ∀ b ∈ app.dom.optionBtns, b.disabled = true) (he : e.rendersQuestion = false) :
    ∀ b ∈ (step app e).dom.optionBtns, b.disabled = true := by
  cases e with
  | startupDelay =>
    simp only [step, startup]
    split
    · split
      · exact h
      · exact h
    · exact h
  | feedbackDelay =>
    simp only [step]
    split
    · exact h
    · exact h
  | fetchDone outcome now draw =>
    simp only [step]
    split
    · exact h
    · rw [loadQuestionResume_buttons _ outcome now draw (by simpa [Event.rendersQuestion] using he)]
      exact h
  | click index now =>
    simp only [step]
    split
    · next btn hbtn =>
      simp only [h btn (List.getElem?_mem hbtn), if_true]
      exact h
    · exact h
  | saveSettings input =>
    simp only [step]
    by_cases hb : jsTrim input = ""
    · rw [saveSettings_blank _ hb]
      exact h
    · simp only [saveSettings, hb, if_false]
      exact h
  | resetStats confirmed =>
    cases confirmed
    · exact h
    · exact h
  | openSettings => exact h
  | closeSettings => exact h

theorem run_keeps_disabled (events : List Event) :
    ∀ (app : QuizApp), (∀ b ∈ app.dom.optionBtns, b.disabled = true) →
      (∀ e ∈ events, e.rendersQuestion = false) →
      ∀ b ∈ (run app events).dom.optionBtns, b.disabled = true := by
  induction events with
  | nil => exact fun _ h _ => h
  | cons e rest ih =>
    intro app h hno
    exact ih (step app e)
      (step_keeps_disabled app e h (hno e (List.mem_cons_self _ _)))
      (fun e' he' => hno e' (List.mem_cons_of_mem _ he'))

/-- C3: after an accepted `selectOption`, and through any events that leave
that question the current one (none of them is a settled fetch whose payload
is stored), the question is still the current one, every option button is
disabled, and a click on any button leaves the whole state unchanged: the
counters, the store and its log of writes, the requests made and the pending
reloads are what they were. -/
theorem selection_accepted_once_per_question (app : QuizApp) (index now : Nat) (btn : Btn)
    (events : List Event) (hans : app.isAnswered = false)
    (hbtn : app.dom.optionBtns[index]? = some btn)
    (hsame : ∀ e ∈ events, e.replacesQuestion = false) :
    (run (selectOption app index now) events).currentQuestion = app.currentQuestion ∧
    (∀ b ∈ (run (selectOption app index now) events).dom.optionBtns, b.disabled = true) ∧
    (∀ j t, step (run (selectOption app index now) events) (.click j t) =
      run (selectOption app index now) events) := by
  have hacc := selectOption_accepted app index now btn hans hbtn
  have hdis := run_keeps_disabled events _ hacc.2.1
    (fun e he => not_rendersQuestion_of_not_replacesQuestion e (hsame e he))
  refine ⟨?_, hdis, ?_⟩
  · rw [run_keeps_question events _ hsame]
    exact (selectOption_frame app index now).2.1
  · intro j t
    simp only [step]
    split
    · next b hb => simp [hdis b (List.getElem?_mem hb)]
    · rfl

/-! ## Timer display -/

theorem padStart2_toString (n : Nat) (h : n < 60) : padStart2 (toString n) = twoDigits n := by
  interval_cases n <;> decide

/-- C10: a tick `t` milliseconds after the timer started, with
`e = floor(t / 1000)`, writes the text `floor(e / 60)`, a colon and `e mod 60`
as exactly two decimal digits (a value in 00..59), and computes the progress
`min(e / 30, 1) * 100`, a percentage between 0 and 100. -/
theorem timer_tick_display (t : Nat) :
    timerText t = toString (t / 1000 / 60) ++ ":" ++ twoDigits (t / 1000 % 60) ∧
    (twoDigits (t / 1000 % 60)).length = 2 ∧
    t / 1000 % 60 < 60 ∧
    timerProgress t = min (((t / 1000 : Nat) : ℚ) / 30) 1 * 100 ∧
    0 ≤ timerProgress t ∧ timerProgress t ≤ 100 := by
  have hlt : t / 1000 % 60 < 60 := Nat.mod_lt _ (by decide)
  refine ⟨?_, rfl, hlt, ?_, ?_, ?_⟩
  · simp only [timerText, padStart2_toString _ hlt]
  · simp only [timerProgress]
    rw [min_mul_of_nonneg _ _ (by norm_num : (0 : ℚ) ≤ 100)]
    norm_num
  · simp only [timerProgress]
    exact le_min (by positivity) (by norm_num)
  · simp only [timerProgress]
    exact min_le_right _ _

theorem selection_accepted_once_per_question_witness :
    (run (selectOption sampleLoaded 2 1700) [.resetStats false, .feedbackDelay,
        .fetchDone (.rejected "offline") 3900 (fun _ => 0)]).currentQuestion =
      sampleLoaded.currentQuestion ∧
    step (run (selectOption sampleLoaded 2 1700) [.resetStats false, .feedbackDelay,
        .fetchDone (.rejected "offline") 3900 (fun _ => 0)]) (.click 0 4000) =
      run (selectOption sampleLoaded 2 1700) [.resetStats false, .feedbackDelay,
        .fetchDone (.rejected "offline") 3900 (fun _ => 0)] ∧
    (run (selectOption sampleLoaded 2 1700) [.resetStats false, .feedbackDelay,
        .fetchDone (.rejected "offline") 3900 (fun _ => 0), .click 0 4000]).requests =
      [.getQuestion "https://gas.example/exec",
        .submitResult "https://gas.example/exec" "q1" true 700,
        .getQuestion "https://gas.example/exec"] :=
  ⟨(selection_accepted_once_per_question sampleLoaded 2 1700
      { textContent := "蘋果", option := .str "蘋果", disabled := false,
        classes := ["option-btn"] }
      [.resetStats false, .feedbackDelay, .fetchDone (.rejected "offline") 3900 (fun _ => 0)]
      (by decide) (by decide)
      (by
        intro e he
        simp only [List.mem_cons, List.mem_singleton, List.not_mem_nil, or_false] at he
        rcases he with rfl | rfl | rfl <;> rfl)).1,
   (selection_accepted_once_per_question sampleLoaded 2 1700
      { textContent := "蘋果", option := .str "蘋果", disabled := false,
        classes := ["option-btn"] }
      [.resetStats false, .feedbackDelay, .fetchDone (.rejected "offline") 3900 (fun _ => 0)]
      (by decide) (by decide)
      (by
        intro e he
        simp only [List.mem_cons, List.mem_singleton, List.not_mem_nil, or_false] at he
        rcases he with rfl | rfl | rfl <;> rfl)).2.2 0 4000,
   by decide⟩

theorem fetch_needs_endpoint_witness :
    (step (QuizApp.new { gasUrl := none, correctCount := none, wrongCount := none } samplePage)
      .startupDelay).dom.modalActive = true ∧
    (step (QuizApp.new { gasUrl := none, correctCount := none, wrongCount := none } samplePage)
      .startupDelay).requests = [] ∧
    (step sampleLoaded (.saveSettings " \t ")).gasUrl = sampleLoaded.gasUrl ∧
    (step sampleLoaded (.saveSettings " \t ")).requests = sampleLoaded.requests ∧
    (run (QuizApp.new sampleStore samplePage)
      [.startupDelay, .fetchDone (.json sampleQuestion) 1000 (fun _ => 0), .click 2 1700,
        .feedbackDelay]).requests =
      [.getQuestion "https://gas.example/exec",
        .submitResult "https://gas.example/exec" "q1" true 700,
        .getQuestion "https://gas.example/exec"] :=
  ⟨((fetch_needs_endpoint { gasUrl := none, correctCount := none, wrongCount := none }
      samplePage []).2.1 (Or.inl rfl)).1,
   ((fetch_needs_endpoint { gasUrl := none, correctCount := none, wrongCount := none }
      samplePage []).2.1 (Or.inl rfl)).2.1,
   ((fetch_needs_endpoint sampleStore samplePage []).2.2 sampleLoaded " \t " (by decide)).1,
   ((fetch_needs_endpoint sampleStore samplePage []).2.2 sampleLoaded " \t "
      (by decide)).2.2.2.1,
   by decide⟩

theorem fetches_sequential_when_saves_idle_witness :
    (step (run (QuizApp.new sampleEmptyStore samplePage)
      [.startupDelay, .saveSettings "https://gas.example/exec",
        .fetchDone (.json sampleQuestion) 1000 (fun _ => 0)])
      (.click 2 1700)).pendingReloads = 1 ∧
    (step (step (run (QuizApp.new sampleEmptyStore samplePage)
      [.startupDelay, .saveSettings "https://gas.example/exec",
        .fetchDone (.json sampleQuestion) 1000 (fun _ => 0)])
      (.click 2 1700)) .feedbackDelay).pendingReloads = 0 ∧
    (run (QuizApp.new sampleEmptyStore samplePage)
      [.startupDelay, .saveSettings "https://gas.example/exec",
        .fetchDone (.json sampleQuestion) 1000 (fun _ => 0), .click 2 1700,
        .feedbackDelay]).requests =
      [.getQuestion "https://gas.example/exec",
        .submitResult "https://gas.example/exec" "q1" true 700,
        .getQuestion "https://gas.example/exec"] :=
  ⟨(((fetches_sequential_when_saves_idle sampleEmptyStore samplePage
      [.startupDelay, .saveSettings "https://gas.example/exec",
        .fetchDone (.json sampleQuestion) 1000 (fun _ => 0)]
      (by decide)).2.2 2 1700
      { textContent := "蘋果", option := .str "蘋果", disabled := false,
        classes := ["option-btn"] }
      (by decide) (by decide) rfl).2.2.2 sampleQuestion (by decide)).1,
   (((fetches_sequential_when_saves_idle sampleEmptyStore samplePage
      [.startupDelay, .saveSettings "https://gas.example/exec",
        .fetchDone (.json sampleQuestion) 1000 (fun _ => 0)]
      (by decide)).2.2 2 1700
      { textContent := "蘋果", option := .str "蘋果", disabled := false,
        classes := ["option-btn"] }
      (by decide) (by decide) rfl).2.2.2 sampleQuestion (by decide)).2.2,
   by decide⟩

theorem counters_monotone_between_resets_witness :
    (∃ m, (run sampleLoaded [.click 2 1700, .resetStats false, .feedbackDelay]).correctCount.toNumber
      = some m ∧ 0 ≤ m) ∧
    (run sampleLoaded [.click 2 1700, .resetStats false, .feedbackDelay]).correctCount = .num 1 ∧
    (resetStats (run sampleLoaded [.click 2 1700]) true).correctCount = .num 0 :=
  ⟨(counters_monotone_between_resets sampleLoaded
      [.click 2 1700, .resetStats false, .feedbackDelay]
      (by
        intro e he
        simp only [List.mem_cons, List.mem_singleton, List.not_mem_nil, or_false] at he
        rcases he with rfl | rfl | rfl <;> rfl)).1 0 (by decide),
   by decide,
   (counters_monotone_between_resets (run sampleLoaded [.click 2 1700]) []
      (fun _ h => nomatch h)).2.2.1⟩

end GAS
